import Mathlib

/-!
# Blocked-request statistics and badge scheduling (`lib/stats.js`)

A shallow embedding of the module `lib/stats.js`: the per-page counter store,
the active-tab tracker, the rate-limited badge scheduler and the tracker
classification rule set, followed by theorems about them.

Modelling conventions.
* The counts held in `State` are exact rationals (`ℚ`); the literal `0.001`
  is `1 / 1000`. That is an idealisation: the code adds IEEE-754 doubles. The
  counter-store part of `recordBlockedRequest` is therefore given a second
  time over doubles (`F64`, `recordBlockedRequestF64`), with every addition
  rounded as JavaScript rounds it.
* A JavaScript `Map` / `Set` is an insertion-ordered list of entries.
* Module-level mutable variables and the effects on collaborators
  (`setTimeout`, `browserAction.setBadge`, `Prefs.untilLoaded.then`) are
  fields of one explicit `State` that every handler transforms.
* An absent optional argument (`typeof tabId == "undefined"`) and an absent
  map entry (`undefined`) are `none`.
-/

namespace Stats

/-! ## JavaScript `Map` and `Set` -/

/-- A JavaScript `Map`: entries in insertion order. -/
structure JsMap (κ ν : Type) where
  entries : List (κ × ν)
deriving DecidableEq, Repr

namespace JsMap

variable {κ ν : Type} [DecidableEq κ]

/-- Lookup in an entry list: the value of the first entry with key `k`. -/
def lookup (k : κ) : List (κ × ν) → Option ν
  | [] => none
  | e :: rest => if e.1 = k then some e.2 else lookup k rest

/-- Update in an entry list: overwrite the entry with key `k` in place, or
append a new entry at the end. -/
def update (k : κ) (v : ν) : List (κ × ν) → List (κ × ν)
  | [] => [(k, v)]
  | e :: rest => if e.1 = k then (k, v) :: rest else e :: update k v rest

/-- The empty map, `new Map()`. -/
def empty : JsMap κ ν := ⟨[]⟩

/-- The call `map.get(k)`; `none` stands for `undefined`. -/
def get (m : JsMap κ ν) (k : κ) : Option ν := lookup k m.entries

/-- The call `map.set(k, v)`. -/
def set (m : JsMap κ ν) (k : κ) (v : ν) : JsMap κ ν := ⟨update k v m.entries⟩

/-- The call `map.delete(k)`. -/
def delete (m : JsMap κ ν) (k : κ) : JsMap κ ν :=
  ⟨m.entries.filter (fun e => decide (e.1 ≠ k))⟩

end JsMap

/-- A JavaScript `Set`: members in insertion order. -/
structure JsSet (α : Type) where
  items : List α
deriving DecidableEq, Repr

namespace JsSet

variable {α : Type} [DecidableEq α]

/-- The empty set, `new Set()`. -/
def empty : JsSet α := ⟨[]⟩

/-- The call `set.has(x)`. -/
def has (s : JsSet α) (x : α) : Bool := decide (x ∈ s.items)

/-- The call `set.add(x)`: a member keeps its place, a new one goes last. -/
def add (s : JsSet α) (x : α) : JsSet α :=
  if x ∈ s.items then s else ⟨s.items ++ [x]⟩

/-- The call `set.delete(x)`. -/
def delete (s : JsSet α) (x : α) : JsSet α :=
  ⟨s.items.filter (fun y => decide (y ≠ x))⟩

end JsSet

/-! ## Regular expressions of `arrayPrivacy` -/

/-- One pattern character of a regular expression: a literal UTF-16 code
unit, or `.`. -/
inductive RxAtom where
  | lit (c : Nat)
  | dot
deriving DecidableEq, Repr

/-- Whether the atom matches the code unit `c`; `.` matches every code unit
except the line terminators LF, CR, U+2028 and U+2029. -/
def RxAtom.accepts : RxAtom → Nat → Bool
  | .lit d, c => d == c
  | .dot, c => !(c == 10 || c == 13 || c == 8232 || c == 8233)

/-- An atom, possibly followed by the quantifier `?`. -/
structure RxItem where
  atom : RxAtom
  optional : Bool
deriving DecidableEq, Repr

/-- A regular expression of the fragment `arrayPrivacy` uses: a sequence of
atoms, each possibly optional; no anchors, no flags. -/
abbrev Regex := List RxItem

/-- Reads the source text of a regular expression literal (what stands
between the two slashes): a backslash makes the next character a literal,
`.` is the wildcard, `?` makes the preceding atom optional. -/
def compileRx : List Char → Regex → Regex
  | [], acc => acc.reverse
  | '\\' :: c :: rest, acc => compileRx rest (⟨.lit c.toNat, false⟩ :: acc)
  | '.' :: rest, acc => compileRx rest (⟨.dot, false⟩ :: acc)
  | '?' :: rest, acc =>
    match acc with
    | [] => compileRx rest acc
    | it :: acc' => compileRx rest (⟨it.atom, true⟩ :: acc')
  | c :: rest, acc => compileRx rest (⟨.lit c.toNat, false⟩ :: acc)

/-- The regular expression literal with source text `src`. -/
def rx (src : String) : Regex := compileRx src.toList []

/-- The UTF-16 code units of a string, as JavaScript sees it. -/
def utf16 (s : String) : List Nat :=
  s.toList.flatMap fun c =>
    if c.toNat < 65536 then [c.toNat]
    else [55296 + (c.toNat - 65536) / 1024, 56320 + (c.toNat - 65536) % 1024]

/-- Whether the expression matches a beginning of the input. -/
def matchHere : Regex → List Nat → Bool
  | [], _ => true
  | it :: rest, [] => it.optional && matchHere rest []
  | it :: rest, c :: cs =>
    (it.atom.accepts c && matchHere rest cs) || (it.optional && matchHere rest (c :: cs))

/-- Whether the expression matches somewhere in the input. -/
def searchRx (r : Regex) : List Nat → Bool
  | [] => matchHere r []
  | c :: cs => matchHere r (c :: cs) || searchRx r cs

/-- The call `rx.test(text)` of an expression without the global or sticky
flag: an unanchored, stateless search. -/
def Regex.test (r : Regex) (text : String) : Bool := searchRx r (utf16 text)

/-- The constant `arrayPrivacy`. -/
def arrayPrivacy : List Regex :=
  [rx "metrics", rx "track", rx "googletagmanager", rx "trak", rx "geo.", rx "statistic",
   rx "stat", rx "count", rx "data", rx "traf", rx "pixel", rx "ga", rx "taboola.com",
   rx "silkenthreadiness.info", rx "adblockanalytics.com",
   rx "google-analytics.com\\/analytics.js", rx "google-analytics.com\\/cx\\/api.js",
   rx "lnkr.us", rx "metrext.com", rx "icontent.us", rx "qip.ng", rx "qip.ru",
   rx "ratexchange.net", rx "trendtext.eu", rx "adnotbad.com", rx "adserv.info",
   rx "serverads.net", rx "jsfuel.com", rx "spaceshipad.com", rx "takethatad.com",
   rx "tradeadsexchange.com", rx "googletagservices.com\\/tag\\/js\\/gpt.js",
   rx "googletagservices.com\\/gpt.js", rx "google-analytics.com\\/ga.js",
   rx "scorecardresearch.com\\/beacon.js", rx "addthis.com", rx "addthis.com",
   rx "clientprofiler\\/adb", rx "rma-api.gravity.com", rx "api.gravity.com",
   rx "b.grvcdn.com\\/moth-min.js", rx "secure-api.gravity.com", rx "geoIP.js",
   rx "cc\\/s.gif?", rx "cn\\/1.gif?", rx "cn\\/2.gif?", rx "cn\\/a.gif?", rx "cn\\/b.gif?",
   rx "cn\\/gs.gif?", rx "cn\\/r.gif?", rx "cn\\/s.gif?", rx "cn\\/xy.gif?", rx "cn\\/z.gif?",
   rx "co\\/e.gif?", rx "com.au\\/HG?hc=", rx "com.com\\/redir?timestamp", rx "com\\/0.gif?",
   rx "com\\/1.gif?", rx "com\\/2.gif?", rx "com\\/3.gif?", rx "ga_", rx ".cloudfront.net"]

/-! ## Data model -/

/-- Tab identifiers are integers. -/
abbrev TabId := Int

/-- Window identifiers are integers. -/
abbrev WindowId := Int

/-- Modelled from the spec: `ext.Page`, the page identity, a key
derived from a tab's numeric identifier. -/
structure Page where
  id : TabId
deriving DecidableEq, Repr

/-- Modelled from the spec: `ext.PageMap`, a mapping from a page identity to a
value, keyed by the identifier of the page. -/
structure PageMap where
  map : JsMap TabId ℚ
deriving DecidableEq

/-- The call `pageMap.get(page)`. -/
def PageMap.get (m : PageMap) (page : Page) : Option ℚ := m.map.get page.id

/-- The call `pageMap.set(page, value)`. -/
def PageMap.set (m : PageMap) (page : Page) (value : ℚ) : PageMap := ⟨m.map.set page.id value⟩

/-- A filter as this module sees it: whether it is an instance of
`BlockingFilter`, and its pattern text. -/
structure Filter where
  isBlocking : Bool
  pattern : String
deriving DecidableEq, Repr

/-- The second argument of `browserAction.setBadge`: the values the module
passes are `null`, `undefined`, a number, or an object with a colour and a
number. -/
inductive BadgeArg where
  | null
  | undefined
  | number (n : ℚ)
  | badge (color : String) (number : ℚ)
deriving DecidableEq

/-- The module's variables and its pending effects on collaborators. -/
structure State where
  /-- The preference `Prefs.show_statsinicon`. -/
  show_statsinicon : Bool
  /-- The variable `blockedPerPage`. -/
  blockedPerPage : PageMap
  /-- The variable `activeTabIds`. -/
  activeTabIds : JsSet TabId
  /-- The variable `activeTabIdByWindowId`. -/
  activeTabIdByWindowId : JsMap WindowId TabId
  /-- The variable `badgeUpdateScheduled`. -/
  badgeUpdateScheduled : Bool
  /-- The number of timers armed by `setTimeout` that have not fired yet; all
  carry the same callback. -/
  timers : Nat
  /-- The calls `browserAction.setBadge(tabId, badge)` made so far, oldest
  first. -/
  badgeCalls : List (TabId × BadgeArg)
  /-- Whether `Prefs.untilLoaded` has resolved. -/
  prefsLoaded : Bool
  /-- The continuations attached to `Prefs.untilLoaded` that have not run
  yet; each is `Prefs.blocked_total++`. -/
  untilLoadedPending : Nat
  /-- The preference `Prefs.blocked_total`. -/
  blocked_total : Nat
deriving DecidableEq

/-- The constant `badgeColor`. -/
def badgeColor : String := "#646464"

/-- The constant `badgeRefreshRate`. -/
def badgeRefreshRate : Nat := 4

/-- The state right after the module's top-level code has run, given the
current value of the preference: every container is empty, nothing is
scheduled. -/
def State.init (show_statsinicon : Bool) : State where
  show_statsinicon := show_statsinicon
  blockedPerPage := ⟨JsMap.empty⟩
  activeTabIds := JsSet.empty
  activeTabIdByWindowId := JsMap.empty
  badgeUpdateScheduled := false
  timers := 0
  badgeCalls := []
  prefsLoaded := false
  untilLoadedPending := 0
  blocked_total := 0

/-! ## Operations -/

/-- The expression `x || 0` on the result of a map lookup. -/
def orZero : Option ℚ → ℚ
  | none => 0
  | some v => if v = 0 then 0 else v

/-- The function `getBlockedPerPage`. -/
def getBlockedPerPage (s : State) (page : Page) : ℚ := orZero (s.blockedPerPage.get page)

/-- The expression `blockedCount && {color: badgeColor, number: blockedCount}`. -/
def badgeOf : Option ℚ → BadgeArg
  | none => .undefined
  | some n => if n = 0 then .number n else .badge badgeColor n

/-- The call `browserAction.setBadge(tabId, badge)`, recorded. -/
def setBadge (tabId : TabId) (badge : BadgeArg) (s : State) : State :=
  { s with badgeCalls := s.badgeCalls ++ [(tabId, badge)] }

/-- The tabs `updateBadge` loops over:
`typeof tabId == "undefined" ? activeTabIds : [tabId]`. -/
def badgeTargets (tabId : Option TabId) (s : State) : List TabId :=
  match tabId with
  | none => s.activeTabIds.items
  | some t => [t]

/-- The body of the loop of `updateBadge`. -/
def updateBadgeStep (s : State) (id : TabId) : State :=
  let page : Page := ⟨id⟩
  let blockedCount := s.blockedPerPage.get page
  setBadge page.id (badgeOf blockedCount) s

/-- The function `updateBadge`. -/
def updateBadge (tabId : Option TabId) (s : State) : State :=
  if !s.show_statsinicon then s
  else (badgeTargets tabId s).foldl updateBadgeStep s

/-- The function `scheduleBadgeUpdate`. -/
def scheduleBadgeUpdate (tabId : Option TabId) (s : State) : State :=
  if !s.badgeUpdateScheduled && s.show_statsinicon &&
      (match tabId with
       | none => true
       | some t => s.activeTabIds.has t)
  then { s with timers := s.timers + 1, badgeUpdateScheduled := true }
  else s

/-- The firing of one pending timer: the callback
`() => { badgeUpdateScheduled = false; updateBadge(); }`. There is no result
when no timer is pending. -/
def fireTimer (s : State) : Option State :=
  if s.timers = 0 then none
  else some (updateBadge none { s with timers := s.timers - 1, badgeUpdateScheduled := false })

/-- Whether some pattern of `arrayPrivacy` matches the text:
`arrayPrivacy.some(rx => rx.test(pattern))`. -/
def isTrackerLike (pattern : String) : Bool := arrayPrivacy.any fun r => r.test pattern

/-- The body of the loop of `recordBlockedRequest`, with the count added as an
exact rational; `recordStepF64` is the same body on the code's doubles. -/
def recordStep (filter : Filter) (s : State) (tabId : TabId) : State :=
  let page : Page := ⟨tabId⟩
  let blocked := orZero (s.blockedPerPage.get page)
  let s1 : State :=
    if isTrackerLike filter.pattern then
      { s with blockedPerPage := s.blockedPerPage.set page (blocked + 1 / 1000) }
    else
      { s with blockedPerPage := s.blockedPerPage.set page (blocked + 1) }
  scheduleBadgeUpdate (some tabId) s1

/-- The function `recordBlockedRequest`. -/
def recordBlockedRequest (filter : Filter) (tabIds : List TabId) (s : State) : State :=
  if !filter.isBlocking then s
  else
    let s1 := tabIds.foldl (recordStep filter) s
    { s1 with untilLoadedPending := s1.untilLoadedPending + 1 }

/-- The listener of `browser.tabs.onActivated`. -/
def onActivated (tabId : TabId) (windowId : WindowId) (s : State) : State :=
  let lastActiveTabId := s.activeTabIdByWindowId.get windowId
  let ids :=
    match lastActiveTabId with
    | some l => s.activeTabIds.delete l
    | none => s.activeTabIds
  scheduleBadgeUpdate none
    { s with activeTabIds := ids.add tabId,
             activeTabIdByWindowId := s.activeTabIdByWindowId.set windowId tabId }

/-- The listener of `browser.windows.onRemoved`; deleting `undefined` from a
set of tab identifiers removes nothing. -/
def onWindowRemoved (windowId : WindowId) (s : State) : State :=
  let ids :=
    match s.activeTabIdByWindowId.get windowId with
    | some t => s.activeTabIds.delete t
    | none => s.activeTabIds
  { s with activeTabIds := ids,
           activeTabIdByWindowId := s.activeTabIdByWindowId.delete windowId }

/-- The listener of `browser.webNavigation.onCommitted`. -/
def onCommitted (frameId : Int) (tabId : TabId) (s : State) : State :=
  if frameId = 0 then updateBadge (some tabId) s else s

/-- The continuation of `browser.tabs.query({active: true})`, given the tabs
the query found as pairs of tab and window identifier. -/
def onActiveTabsQueried (tabs : List (TabId × WindowId)) (s : State) : State :=
  scheduleBadgeUpdate none
    (tabs.foldl
      (fun st tab =>
        { st with activeTabIds := st.activeTabIds.add tab.1,
                  activeTabIdByWindowId := st.activeTabIdByWindowId.set tab.2 tab.1 })
      s)

/-- The continuation of `browser.tabs.query({})` in the listener of the
preference `show_statsinicon`, given the identifiers of the tabs found. -/
def onPrefTabsQueried (tabs : List TabId) (s : State) : State :=
  tabs.foldl
    (fun st id => if st.show_statsinicon then updateBadge (some id) st else setBadge id .null st)
    s

/-- The message handler of `"stats.getBlockedPerPage"`, given `message.tab`. -/
def onGetBlockedPerPage (tab : Page) (s : State) : ℚ := getBlockedPerPage s ⟨tab.id⟩

/-- Modelled from the spec: the readiness signal `Prefs.untilLoaded` of the
preference store, a promise. One continuation attached to it runs; there is
no result when the preferences are not loaded or nothing is attached. -/
def runUntilLoaded (s : State) : Option State :=
  if s.prefsLoaded && decide (0 < s.untilLoadedPending) then
    some { s with untilLoadedPending := s.untilLoadedPending - 1,
                  blocked_total := s.blocked_total + 1 }
  else none

/-! ## Events -/

/-- What can happen to the module between two of its handlers. -/
inductive Event where
  | repaintRequest (tabId : Option TabId)
  | blockedRequest (filter : Filter) (tabIds : List TabId)
  | tabActivated (tabId : TabId) (windowId : WindowId)
  | windowRemoved (windowId : WindowId)
  | navigationCommitted (frameId : Int) (tabId : TabId)
  | timerFired
  | activeTabsQueried (tabs : List (TabId × WindowId))
  | prefSet (value : Bool)
  | prefTabsQueried (tabs : List TabId)
  | prefsLoaded
  | untilLoadedRun
deriving DecidableEq

/-- The state after an event; `none` when the event cannot happen in the
state (no timer to fire, no continuation to run). -/
def step (s : State) : Event → Option State
  | .repaintRequest tabId => some (scheduleBadgeUpdate tabId s)
  | .blockedRequest filter tabIds => some (recordBlockedRequest filter tabIds s)
  | .tabActivated tabId windowId => some (onActivated tabId windowId s)
  | .windowRemoved windowId => some (onWindowRemoved windowId s)
  | .navigationCommitted frameId tabId => some (onCommitted frameId tabId s)
  | .timerFired => fireTimer s
  | .activeTabsQueried tabs => some (onActiveTabsQueried tabs s)
  | .prefSet value => some { s with show_statsinicon := value }
  | .prefTabsQueried tabs => some (onPrefTabsQueried tabs s)
  | .prefsLoaded => some { s with prefsLoaded := true }
  | .untilLoadedRun => runUntilLoaded s

/-- The state after a sequence of events, when each can happen in turn. -/
def run (s : State) : List Event → Option State
  | [] => some s
  | e :: es => (step s e).bind fun s1 => run s1 es

/-- The events of the active-tab tracker: tab activated, window removed. -/
def Event.isTracker : Event → Bool
  | .tabActivated _ _ => true
  | .windowRemoved _ => true
  | _ => false

/-! ## The counter store over IEEE-754 doubles

The operations above add counts as exact rationals. The definitions below
repeat the counter-store part of `recordBlockedRequest` with the arithmetic
JavaScript uses: every number is a double and every addition is rounded to
the nearest double, ties to even. -/

/-- A finite, non-negative IEEE-754 double, the value `mant * 2 ^ exp`. A
nonzero double is normalised, `2 ^ 52 ≤ mant < 2 ^ 53`; zero is `⟨0, 0⟩`.
Overflow, subnormal numbers, negative numbers and NaN are not modelled: the
counts are sums of the increments 1 and 0.001, far from those ranges. -/
structure F64 where
  mant : Nat
  exp : Int
deriving DecidableEq, Repr

/-- The double `0`. -/
def F64.zero : F64 := ⟨0, 0⟩

/-- The double with significand `q` and exponent `e`, zero when `q = 0`. -/
def F64.norm (q : Nat) (e : Int) : F64 := if q = 0 then F64.zero else ⟨q, e⟩

/-- The double with the rounded significand `q ≤ 2 ^ 53` and exponent `e`:
a significand that rounding carried up to `2 ^ 53` is renormalised. -/
def F64.pack (q : Nat) (e : Int) : F64 :=
  if q = 2 ^ 53 then ⟨2 ^ 52, e + 1⟩ else F64.norm q e

/-- The binary logarithm by repeated halving; the first argument bounds the
number of halvings. -/
def log2Fuel : Nat → Nat → Nat
  | 0, _ => 0
  | fuel + 1, n => if n < 2 then 0 else log2Fuel fuel (n / 2) + 1

/-- The position of the highest set bit of `n`, that is `Nat.log2 n`; `n`
halvings are always enough. -/
def bitLog (n : Nat) : Nat := log2Fuel n n

/-- The double nearest to the fraction `n / d` (with `0 < d`), ties to even:
the exponent is chosen so that the quotient has 53 bits, the remainder
decides the rounding. -/
def F64.round (n d : Nat) : F64 :=
  if n = 0 then F64.zero
  else
    let e0 : Int := (bitLog n : Int) - (bitLog d : Int) - 52
    let q0 : Nat := if 0 ≤ e0 then n / (d * 2 ^ e0.toNat) else n * 2 ^ (-e0).toNat / d
    let e : Int := if q0 < 2 ^ 52 then e0 - 1 else e0
    let num : Nat := if 0 ≤ e then n else n * 2 ^ (-e).toNat
    let den : Nat := if 0 ≤ e then d * 2 ^ e.toNat else d
    let q : Nat := num / den
    let r : Nat := num % den
    let up : Bool := decide (den < 2 * r) || (decide (2 * r = den) && decide (q % 2 = 1))
    let q1 : Nat := if up then q + 1 else q
    F64.pack q1 e

/-- The JavaScript sum `x + y` of two doubles: the exact sum, rounded. -/
def F64.add (x y : F64) : F64 :=
  let e : Int := min x.exp y.exp
  let sum : Nat := x.mant * 2 ^ (x.exp - e).toNat + y.mant * 2 ^ (y.exp - e).toNat
  if 0 ≤ e then F64.round (sum * 2 ^ e.toNat) 1 else F64.round sum (2 ^ (-e).toNat)

/-- The JavaScript product `x * y` of two doubles: the exact product,
rounded. -/
def F64.mul (x y : F64) : F64 :=
  let e : Int := x.exp + y.exp
  if 0 ≤ e then F64.round (x.mant * y.mant * 2 ^ e.toNat) 1
  else F64.round (x.mant * y.mant) (2 ^ (-e).toNat)

/-- The double of a natural number literal. -/
def F64.ofNat (n : Nat) : F64 := F64.round n 1

/-- The literal `0.001`: the double nearest to 1/1000. -/
def F64.milli : F64 := F64.round 1 1000

/-- The expression `x || 0` on the result of a lookup of a double: `undefined`
and the number 0 give 0. -/
def orZeroF64 : Option F64 → F64
  | none => F64.zero
  | some v => if v.mant = 0 then F64.zero else v

/-- The count `getBlockedPerPage` reads, with `blockedPerPage` holding
doubles. -/
def getBlockedF64 (store : JsMap TabId F64) (page : Page) : F64 :=
  orZeroF64 (store.get page.id)

/-- The increment of `recordBlockedRequest` as a double: `0.001` when some
pattern of `arrayPrivacy` matches the filter's pattern, `1` otherwise. -/
def incrementF64 (filter : Filter) : F64 :=
  if isTrackerLike filter.pattern then F64.milli else F64.ofNat 1

/-- The body of the loop of `recordBlockedRequest` on the variable
`blockedPerPage`, with doubles: `blocked += 0.001` or `++blocked`. -/
def recordStepF64 (filter : Filter) (store : JsMap TabId F64) (tabId : TabId) :
    JsMap TabId F64 :=
  let page : Page := ⟨tabId⟩
  let blocked := orZeroF64 (store.get page.id)
  if isTrackerLike filter.pattern then store.set page.id (F64.add blocked F64.milli)
  else store.set page.id (F64.add blocked (F64.ofNat 1))

/-- The function `recordBlockedRequest` on the variable `blockedPerPage`,
with doubles. -/
def recordBlockedRequestF64 (filter : Filter) (tabIds : List TabId)
    (store : JsMap TabId F64) : JsMap TabId F64 :=
  if !filter.isBlocking then store else tabIds.foldl (recordStepF64 filter) store

/-- The double `x` after `k` additions of `d`, one after the other:
`((x + d) + d) + ...`. -/
def addTimes (d : F64) : Nat → F64 → F64
  | 0, x => x
  | k + 1, x => addTimes d k (F64.add x d)

/-! ## Vocabulary of the statements -/

/-- The state after a sequence of calls of `recordBlockedRequest`. -/
def recordAll (calls : List (Filter × List TabId)) (s : State) : State :=
  calls.foldl (fun st c => recordBlockedRequest c.1 c.2 st) s

/-- The number of blocks that a sequence of calls records for a page with a
filter that is tracker-like (`tracker = true`) or not (`tracker = false`). -/
def blocksRecorded (tracker : Bool) (pageId : TabId) (calls : List (Filter × List TabId)) : Nat :=
  (calls.map fun c => if isTrackerLike c.1.pattern = tracker then c.2.count pageId else 0).sum

/-- Whether an event keeps to the tracker's assumption that a tab is the
active tab of at most one window: a tab-activated event names a tab that no
other window is mapped to. -/
def respectsSingleWindow (s : State) : Event → Bool
  | .tabActivated tabId windowId =>
    s.activeTabIdByWindowId.entries.all fun e => e.2 != tabId || e.1 == windowId
  | _ => true

/-- The state after a sequence of tab-activated and window-removed events
that each keep to the single-window assumption; `none` for any other
sequence. -/
def runTracker (s : State) : List Event → Option State
  | [] => some s
  | e :: es =>
    if e.isTracker && respectsSingleWindow s e then
      (step s e).bind fun s1 => runTracker s1 es
    else none

/-- The state after a sequence of repaint requests, each with or without a
tab id, with no timer firing in between. -/
def requestAll (reqs : List (Option TabId)) (s : State) : State :=
  reqs.foldl (fun st r => scheduleBadgeUpdate r st) s

/-- The tracker's two invariants: every tab a window is mapped to is in the
active set, and no two windows are mapped to the same tab. -/
def TrackerInv (s : State) : Prop :=
  (∀ w t, s.activeTabIdByWindowId.get w = some t → s.activeTabIds.has t = true) ∧
    ∀ w1 w2 t, s.activeTabIdByWindowId.get w1 = some t →
      s.activeTabIdByWindowId.get w2 = some t → w1 = w2

/-- The scheduler's invariant: one timer is pending when the flag
`badgeUpdateScheduled` is set, none otherwise. -/
def SchedInv (s : State) : Prop :=
  s.timers = if s.badgeUpdateScheduled then 1 else 0

/-- The converse tracker invariant: every tab of the active set is the tab
some window of the window map is mapped to. -/
def MappedInv (s : State) : Prop :=
  ∀ t, s.activeTabIds.has t = true → ∃ w, s.activeTabIdByWindowId.get w = some t

/-- What the handlers other than a timer firing, the readiness signal and a
deferred continuation leave alone: the readiness flag and the lifetime total
stay, no timer and no pending continuation goes away. -/
def Frame (s s1 : State) : Prop :=
  s1.prefsLoaded = s.prefsLoaded ∧ s1.blocked_total = s.blocked_total ∧
    s.timers ≤ s1.timers ∧ s.untilLoadedPending ≤ s1.untilLoadedPending

/-- Every stored per-page count is strictly positive. -/
def PositiveStore (s : State) : Prop :=
  ∀ page count, s.blockedPerPage.get page = some count → 0 < count

/-- The stored counts of `s1` are those of `s` or larger: no entry of `s` is
missing in `s1`, none is smaller. -/
def StoreGrows (s s1 : State) : Prop :=
  ∀ page count, s.blockedPerPage.get page = some count →
    ∃ count1, s1.blockedPerPage.get page = some count1 ∧ count ≤ count1

/-! ## Facts about `Map` and `Set` -/

section Containers

variable {κ ν α : Type} [DecidableEq κ] [DecidableEq α]

theorem JsMap.lookup_update_self (k : κ) (v : ν) (l : List (κ × ν)) :
    JsMap.lookup k (JsMap.update k v l) = some v := by
  induction l with
  | nil => simp [JsMap.update, JsMap.lookup]
  | cons e rest ih =>
    by_cases h : e.1 = k
    · simp [JsMap.update, JsMap.lookup, h]
    · simp [JsMap.update, JsMap.lookup, h, ih]

theorem JsMap.lookup_update_ne {k k1 : κ} (v : ν) (l : List (κ × ν)) (hne : k1 ≠ k) :
    JsMap.lookup k1 (JsMap.update k v l) = JsMap.lookup k1 l := by
  induction l with
  | nil => simp [JsMap.update, JsMap.lookup, Ne.symm hne]
  | cons e rest ih =>
    obtain ⟨a, b⟩ := e
    by_cases h : a = k
    · subst h
      simp [JsMap.update, JsMap.lookup, Ne.symm hne]
    · by_cases h1 : a = k1
      · subst h1
        simp [JsMap.update, JsMap.lookup, h]
      · simp [JsMap.update, JsMap.lookup, h, h1, ih]

theorem JsMap.lookup_filter_self (k : κ) (l : List (κ × ν)) :
    JsMap.lookup k (l.filter fun e => decide (e.1 ≠ k)) = none := by
  induction l with
  | nil => simp [JsMap.lookup]
  | cons e rest ih =>
    rw [List.filter_cons]
    by_cases h : e.1 = k
    · rw [if_neg (by simp [h])]
      exact ih
    · rw [if_pos (by simp [h])]
      simp only [JsMap.lookup, h, if_false]
      exact ih

theorem JsMap.lookup_filter_ne {k k1 : κ} (l : List (κ × ν)) (hne : k1 ≠ k) :
    JsMap.lookup k1 (l.filter fun e => decide (e.1 ≠ k)) = JsMap.lookup k1 l := by
  induction l with
  | nil => simp [JsMap.lookup]
  | cons e rest ih =>
    rw [List.filter_cons]
    by_cases h : e.1 = k
    · have h1 : ¬ e.1 = k1 := fun h2 => hne (h2 ▸ h)
      rw [if_neg (by simp [h])]
      simp only [JsMap.lookup, h1, if_false]
      exact ih
    · rw [if_pos (by simp [h])]
      by_cases h1 : e.1 = k1
      · simp only [JsMap.lookup, h1, if_true]
      · simp only [JsMap.lookup, h1, if_false]
        exact ih

theorem JsMap.filter_of_lookup_none (k : κ) (l : List (κ × ν))
    (hnone : JsMap.lookup k l = none) : (l.filter fun e => decide (e.1 ≠ k)) = l := by
  induction l with
  | nil => simp
  | cons e rest ih =>
    rw [List.filter_cons]
    by_cases h : e.1 = k
    · simp [JsMap.lookup, h] at hnone
    · simp only [JsMap.lookup, h, if_false] at hnone
      rw [if_pos (by simp [h]), ih hnone]

theorem JsMap.lookup_some_mem {k : κ} {v : ν} {l : List (κ × ν)}
    (h : JsMap.lookup k l = some v) : (k, v) ∈ l := by
  induction l with
  | nil => simp [JsMap.lookup] at h
  | cons e rest ih =>
    by_cases h1 : e.1 = k
    · simp only [JsMap.lookup, h1, if_true, Option.some.injEq] at h
      have : e = (k, v) := Prod.ext h1 h
      simp [this]
    · simp only [JsMap.lookup, h1, if_false] at h
      exact List.mem_cons_of_mem _ (ih h)

theorem JsMap.get_set_self (m : JsMap κ ν) (k : κ) (v : ν) : (m.set k v).get k = some v :=
  JsMap.lookup_update_self k v m.entries

theorem JsMap.get_set_ne (m : JsMap κ ν) {k k1 : κ} (v : ν) (hne : k1 ≠ k) :
    (m.set k v).get k1 = m.get k1 :=
  JsMap.lookup_update_ne v m.entries hne

theorem JsMap.get_delete_self (m : JsMap κ ν) (k : κ) : (m.delete k).get k = none :=
  JsMap.lookup_filter_self k m.entries

theorem JsMap.get_delete_ne (m : JsMap κ ν) {k k1 : κ} (hne : k1 ≠ k) :
    (m.delete k).get k1 = m.get k1 :=
  JsMap.lookup_filter_ne m.entries hne

theorem JsMap.delete_of_get_none (m : JsMap κ ν) (k : κ) (hnone : m.get k = none) :
    m.delete k = m := by
  cases m with
  | mk entries =>
    simp only [JsMap.delete, JsMap.mk.injEq]
    exact JsMap.filter_of_lookup_none k entries hnone

theorem JsSet.has_add (s : JsSet α) (x y : α) :
    (s.add x).has y = true ↔ s.has y = true ∨ y = x := by
  unfold JsSet.add JsSet.has
  by_cases h : x ∈ s.items
  · simp only [h, if_true, decide_eq_true_eq]
    constructor
    · exact fun hy => Or.inl hy
    · rintro (hy | rfl)
      · exact hy
      · exact h
  · simp [h]

theorem JsSet.has_delete (s : JsSet α) (x y : α) :
    (s.delete x).has y = true ↔ s.has y = true ∧ y ≠ x := by
  simp [JsSet.delete, JsSet.has, List.mem_filter]

end Containers

/-! ## Facts about the counter store -/

theorem orZero_some (v : ℚ) : orZero (some v) = v := by
  show (if v = 0 then 0 else v) = v
  split_ifs with h
  · exact h.symm
  · rfl

theorem scheduleBadgeUpdate_cases (tabId : Option TabId) (s : State) :
    scheduleBadgeUpdate tabId s = s ∨
      scheduleBadgeUpdate tabId s =
        { s with timers := s.timers + 1, badgeUpdateScheduled := true } := by
  unfold scheduleBadgeUpdate
  split
  · exact Or.inr rfl
  · exact Or.inl rfl

theorem scheduleBadgeUpdate_blockedPerPage (tabId : Option TabId) (s : State) :
    (scheduleBadgeUpdate tabId s).blockedPerPage = s.blockedPerPage := by
  rcases scheduleBadgeUpdate_cases tabId s with h | h <;> rw [h]

theorem scheduleBadgeUpdate_activeTabIds (tabId : Option TabId) (s : State) :
    (scheduleBadgeUpdate tabId s).activeTabIds = s.activeTabIds := by
  rcases scheduleBadgeUpdate_cases tabId s with h | h <;> rw [h]

theorem scheduleBadgeUpdate_activeTabIdByWindowId (tabId : Option TabId) (s : State) :
    (scheduleBadgeUpdate tabId s).activeTabIdByWindowId = s.activeTabIdByWindowId := by
  rcases scheduleBadgeUpdate_cases tabId s with h | h <;> rw [h]

theorem recordStep_blockedPerPage (filter : Filter) (s : State) (tabId : TabId) :
    (recordStep filter s tabId).blockedPerPage =
      s.blockedPerPage.set ⟨tabId⟩
        (orZero (s.blockedPerPage.get ⟨tabId⟩) +
          (if isTrackerLike filter.pattern then 1 / 1000 else 1)) := by
  unfold recordStep
  simp only [scheduleBadgeUpdate_blockedPerPage]
  split <;> rfl

theorem recordStep_get_ne (filter : Filter) (s : State) (tabId : TabId) (page : Page)
    (hne : page.id ≠ tabId) :
    (recordStep filter s tabId).blockedPerPage.get page = s.blockedPerPage.get page := by
  rw [recordStep_blockedPerPage]
  exact JsMap.get_set_ne _ _ hne

theorem recordStep_getBlockedPerPage (filter : Filter) (s : State) (tabId : TabId)
    (page : Page) :
    getBlockedPerPage (recordStep filter s tabId) page =
      getBlockedPerPage s page +
        (if tabId = page.id then (if isTrackerLike filter.pattern then 1 / 1000 else 1)
         else 0) := by
  by_cases h : tabId = page.id
  · obtain ⟨id⟩ := page
    simp only at h
    subst h
    unfold getBlockedPerPage
    rw [recordStep_blockedPerPage]
    simp only [PageMap.get, PageMap.set, JsMap.get_set_self, orZero_some, if_true]
  · unfold getBlockedPerPage
    rw [recordStep_get_ne filter s tabId page (fun h1 => h h1.symm)]
    simp [h]

theorem foldl_recordStep_get_of_not_mem (filter : Filter) (tabIds : List TabId) (page : Page)
    (hnot : page.id ∉ tabIds) (s : State) :
    (tabIds.foldl (recordStep filter) s).blockedPerPage.get page =
      s.blockedPerPage.get page := by
  induction tabIds generalizing s with
  | nil => rfl
  | cons t ts ih =>
    rw [List.foldl_cons, ih (fun h => hnot (List.mem_cons_of_mem _ h)),
      recordStep_get_ne filter s t page (fun h => hnot (h ▸ List.mem_cons_self _ _))]

theorem foldl_recordStep_getBlockedPerPage (filter : Filter) (tabIds : List TabId)
    (page : Page) (s : State) :
    getBlockedPerPage (tabIds.foldl (recordStep filter) s) page =
      getBlockedPerPage s page +
        (tabIds.count page.id : ℚ) * (if isTrackerLike filter.pattern then 1 / 1000 else 1) := by
  induction tabIds generalizing s with
  | nil => simp
  | cons t ts ih =>
    rw [List.foldl_cons, ih, recordStep_getBlockedPerPage, List.count_cons]
    by_cases h : t = page.id
    · simp only [h, if_true, beq_self_eq_true]
      push_cast
      ring
    · have h1 : (t == page.id) = false := by simpa using h
      simp only [h, if_false, h1]
      push_cast
      ring

theorem recordBlockedRequest_blockedPerPage (filter : Filter) (tabIds : List TabId) (s : State)
    (hblocking : filter.isBlocking = true) :
    (recordBlockedRequest filter tabIds s).blockedPerPage =
      (tabIds.foldl (recordStep filter) s).blockedPerPage := by
  simp [recordBlockedRequest, hblocking]

theorem foldl_recordBlockedRequest_getBlockedPerPage (calls : List (Filter × List TabId))
    (page : Page) (hblocking : ∀ c ∈ calls, c.1.isBlocking = true) (s : State) :
    getBlockedPerPage (recordAll calls s) page =
      getBlockedPerPage s page + (blocksRecorded false page.id calls : ℚ) +
        (blocksRecorded true page.id calls : ℚ) / 1000 := by
  induction calls generalizing s with
  | nil => simp [blocksRecorded, recordAll]
  | cons c cs ih =>
    have hc : c.1.isBlocking = true := hblocking c (List.mem_cons_self _ _)
    unfold recordAll at ih ⊢
    rw [List.foldl_cons, ih (fun d hd => hblocking d (List.mem_cons_of_mem _ hd))]
    have hstep : getBlockedPerPage (recordBlockedRequest c.1 c.2 s) page =
        getBlockedPerPage s page +
          (c.2.count page.id : ℚ) * (if isTrackerLike c.1.pattern then 1 / 1000 else 1) := by
      unfold getBlockedPerPage
      rw [recordBlockedRequest_blockedPerPage c.1 c.2 s hc]
      exact foldl_recordStep_getBlockedPerPage c.1 c.2 page s
    rw [hstep]
    unfold blocksRecorded
    by_cases ht : isTrackerLike c.1.pattern = true
    · simp only [List.map_cons, List.sum_cons, ht, if_true]
      simp
      ring
    · have hf : isTrackerLike c.1.pattern = false := by simpa using ht
      simp only [List.map_cons, List.sum_cons, hf]
      simp
      ring

/-! ## The counter store: theorems -/

/-- C1: for every page and every sequence of `recordBlockedRequest` calls with
blocking filters that starts with no entry for the page, if the calls record
`a` blocks that are not tracker-like and `t < 1000` tracker-like blocks for
the page, then the count read by `getBlockedPerPage`, an exact rational, has
floor `a`, and its fractional part times 1000 rounds to `t`. -/
theorem getBlockedPerPage_floor_round (s : State) (page : Page)
    (calls : List (Filter × List TabId))
    (habsent : s.blockedPerPage.get page = none)
    (hblocking : ∀ c ∈ calls, c.1.isBlocking = true)
    (hlow : blocksRecorded true page.id calls < 1000) :
    ⌊getBlockedPerPage (recordAll calls s) page⌋ = (blocksRecorded false page.id calls : ℤ) ∧
      round ((getBlockedPerPage (recordAll calls s) page -
          ⌊getBlockedPerPage (recordAll calls s) page⌋) * 1000) =
        (blocksRecorded true page.id calls : ℤ) := by
  have hcount := foldl_recordBlockedRequest_getBlockedPerPage calls page hblocking s
  have hzero : getBlockedPerPage s page = 0 := by
    unfold getBlockedPerPage
    rw [habsent]
    rfl
  rw [hzero, zero_add] at hcount
  have hlt : ((blocksRecorded true page.id calls : ℕ) : ℚ) < 1000 := by exact_mod_cast hlow
  have hnn : (0 : ℚ) ≤ ((blocksRecorded true page.id calls : ℕ) : ℚ) := Nat.cast_nonneg _
  have hfloor : ⌊getBlockedPerPage (recordAll calls s) page⌋ =
      (blocksRecorded false page.id calls : ℤ) := by
    rw [Int.floor_eq_iff, hcount]
    constructor
    · push_cast
      linarith [div_nonneg hnn (by norm_num : (0 : ℚ) ≤ 1000)]
    · push_cast
      have : ((blocksRecorded true page.id calls : ℕ) : ℚ) / 1000 < 1 := by
        rw [div_lt_one (by norm_num)]
        exact hlt
      linarith
  refine ⟨hfloor, ?_⟩
  rw [hfloor, hcount]
  have hfrac : ((blocksRecorded false page.id calls : ℕ) : ℚ) +
      ((blocksRecorded true page.id calls : ℕ) : ℚ) / 1000 -
        (((blocksRecorded false page.id calls : ℕ) : ℤ) : ℚ) =
      ((blocksRecorded true page.id calls : ℕ) : ℚ) / 1000 := by
    push_cast
    ring
  rw [hfrac, div_mul_cancel₀ _ (by norm_num : (1000 : ℚ) ≠ 0)]
  exact round_natCast _

/-- C1 at a concrete input: one tracker-like and one other block for tab 7. -/
theorem getBlockedPerPage_floor_round_witness :
    ⌊getBlockedPerPage
        (recordAll [(⟨true, "googletagmanager"⟩, [7]), (⟨true, "/ads/banner"⟩, [7])]
          (State.init true)) ⟨7⟩⌋ =
      (blocksRecorded false 7
        [(⟨true, "googletagmanager"⟩, [7]), (⟨true, "/ads/banner"⟩, [7])] : ℤ) ∧
    round ((getBlockedPerPage
        (recordAll [(⟨true, "googletagmanager"⟩, [7]), (⟨true, "/ads/banner"⟩, [7])]
          (State.init true)) ⟨7⟩ -
        ⌊getBlockedPerPage
          (recordAll [(⟨true, "googletagmanager"⟩, [7]), (⟨true, "/ads/banner"⟩, [7])]
            (State.init true)) ⟨7⟩⌋) * 1000) =
      (blocksRecorded true 7
        [(⟨true, "googletagmanager"⟩, [7]), (⟨true, "/ads/banner"⟩, [7])] : ℤ) :=
  getBlockedPerPage_floor_round (State.init true) ⟨7⟩
    [(⟨true, "googletagmanager"⟩, [7]), (⟨true, "/ads/banner"⟩, [7])]
    (by decide) (by decide) (by decide)

/-- C8: for every filter that is not a blocking filter and every list
`tabIds`, `recordBlockedRequest(filter, tabIds)` leaves the whole state
unchanged: no count is created or modified, the pending flag and the timers
are unchanged, and no increment of `blocked_total` is issued. -/
theorem recordBlockedRequest_not_blocking (filter : Filter) (tabIds : List TabId) (s : State)
    (hnot : filter.isBlocking = false) : recordBlockedRequest filter tabIds s = s := by
  simp [recordBlockedRequest, hnot]

/-- C8 at a concrete input: a filter that is not blocking, recorded for tab 7. -/
theorem recordBlockedRequest_not_blocking_witness :
    recordBlockedRequest ⟨false, "googletagmanager"⟩ [7] (State.init true) = State.init true :=
  recordBlockedRequest_not_blocking ⟨false, "googletagmanager"⟩ [7] (State.init true) rfl

/-! ## Facts about the active-tab tracker -/

theorem onActivated_has (s : State) (tabId : TabId) (windowId : WindowId) (x : TabId) :
    (onActivated tabId windowId s).activeTabIds.has x = true ↔
      (s.activeTabIds.has x = true ∧ s.activeTabIdByWindowId.get windowId ≠ some x) ∨
        x = tabId := by
  unfold onActivated
  simp only [scheduleBadgeUpdate_activeTabIds]
  rw [JsSet.has_add]
  cases hget : s.activeTabIdByWindowId.get windowId with
  | none => simp
  | some l =>
    simp only [JsSet.has_delete, ne_eq, Option.some.injEq]
    constructor
    · rintro (⟨h1, h2⟩ | h)
      · exact Or.inl ⟨h1, fun h3 => h2 h3.symm⟩
      · exact Or.inr h
    · rintro (⟨h1, h2⟩ | h)
      · exact Or.inl ⟨h1, fun h3 => h2 h3.symm⟩
      · exact Or.inr h

theorem onActivated_get_self (s : State) (tabId : TabId) (windowId : WindowId) :
    (onActivated tabId windowId s).activeTabIdByWindowId.get windowId = some tabId := by
  unfold onActivated
  simp only [scheduleBadgeUpdate_activeTabIdByWindowId]
  exact JsMap.get_set_self _ _ _

theorem onActivated_get_ne (s : State) (tabId : TabId) (windowId w : WindowId)
    (hne : w ≠ windowId) :
    (onActivated tabId windowId s).activeTabIdByWindowId.get w =
      s.activeTabIdByWindowId.get w := by
  unfold onActivated
  simp only [scheduleBadgeUpdate_activeTabIdByWindowId]
  exact JsMap.get_set_ne _ _ hne

theorem onWindowRemoved_has (s : State) (windowId : WindowId) (x : TabId) :
    (onWindowRemoved windowId s).activeTabIds.has x = true ↔
      s.activeTabIds.has x = true ∧ s.activeTabIdByWindowId.get windowId ≠ some x := by
  unfold onWindowRemoved
  cases hget : s.activeTabIdByWindowId.get windowId with
  | none => simp
  | some l =>
    simp only [JsSet.has_delete, ne_eq, Option.some.injEq]
    constructor
    · rintro ⟨h1, h2⟩
      exact ⟨h1, fun h3 => h2 h3.symm⟩
    · rintro ⟨h1, h2⟩
      exact ⟨h1, fun h3 => h2 h3.symm⟩

theorem onWindowRemoved_get_self (s : State) (windowId : WindowId) :
    (onWindowRemoved windowId s).activeTabIdByWindowId.get windowId = none :=
  JsMap.get_delete_self _ _

theorem onWindowRemoved_get_ne (s : State) (windowId w : WindowId) (hne : w ≠ windowId) :
    (onWindowRemoved windowId s).activeTabIdByWindowId.get w =
      s.activeTabIdByWindowId.get w :=
  JsMap.get_delete_ne _ hne

theorem onWindowRemoved_of_get_none (s : State) (windowId : WindowId)
    (hnone : s.activeTabIdByWindowId.get windowId = none) : onWindowRemoved windowId s = s := by
  unfold onWindowRemoved
  rw [hnone, JsMap.delete_of_get_none _ _ hnone]

theorem trackerInv_onActivated (s : State) (tabId : TabId) (windowId : WindowId)
    (hinv : TrackerInv s)
    (hok : respectsSingleWindow s (.tabActivated tabId windowId) = true) :
    TrackerInv (onActivated tabId windowId s) := by
  obtain ⟨hmem, hinj⟩ := hinv
  have hguard : ∀ w, s.activeTabIdByWindowId.get w = some tabId → w = windowId := by
    intro w hw
    have hin := JsMap.lookup_some_mem hw
    simp only [respectsSingleWindow, List.all_eq_true] at hok
    have := hok _ hin
    simpa using this
  constructor
  · intro w t hget
    rw [onActivated_has]
    by_cases hw : w = windowId
    · subst hw
      rw [onActivated_get_self] at hget
      exact Or.inr (Option.some.inj hget).symm
    · rw [onActivated_get_ne s tabId windowId w hw] at hget
      exact Or.inl ⟨hmem w t hget, fun h => hw (hinj w windowId t hget h)⟩
  · intro w1 w2 t h1 h2
    by_cases hw1 : w1 = windowId
    · by_cases hw2 : w2 = windowId
      · rw [hw1, hw2]
      · subst hw1
        rw [onActivated_get_self] at h1
        rw [onActivated_get_ne s tabId w1 w2 hw2, ← h1] at h2
        exact (hguard w2 h2).symm
    · by_cases hw2 : w2 = windowId
      · subst hw2
        rw [onActivated_get_self] at h2
        rw [onActivated_get_ne s tabId w2 w1 hw1, ← h2] at h1
        exact hguard w1 h1
      · rw [onActivated_get_ne s tabId windowId w1 hw1] at h1
        rw [onActivated_get_ne s tabId windowId w2 hw2] at h2
        exact hinj w1 w2 t h1 h2

theorem trackerInv_onWindowRemoved (s : State) (windowId : WindowId) (hinv : TrackerInv s) :
    TrackerInv (onWindowRemoved windowId s) := by
  obtain ⟨hmem, hinj⟩ := hinv
  have hold : ∀ w t, (onWindowRemoved windowId s).activeTabIdByWindowId.get w = some t →
      w ≠ windowId ∧ s.activeTabIdByWindowId.get w = some t := by
    intro w t hget
    by_cases hw : w = windowId
    · subst hw
      rw [onWindowRemoved_get_self] at hget
      cases hget
    · rw [onWindowRemoved_get_ne s windowId w hw] at hget
      exact ⟨hw, hget⟩
  constructor
  · intro w t hget
    obtain ⟨hw, hget1⟩ := hold w t hget
    rw [onWindowRemoved_has]
    exact ⟨hmem w t hget1, fun h => hw (hinj w windowId t hget1 h)⟩
  · intro w1 w2 t h1 h2
    exact hinj w1 w2 t (hold w1 t h1).2 (hold w2 t h2).2

theorem trackerInv_runTracker (es : List Event) (s s1 : State) (hinv : TrackerInv s)
    (hrun : runTracker s es = some s1) : TrackerInv s1 := by
  induction es generalizing s with
  | nil =>
    simp only [runTracker, Option.some.injEq] at hrun
    exact hrun ▸ hinv
  | cons e es ih =>
    unfold runTracker at hrun
    split at hrun
    · rename_i hcond
      rw [Bool.and_eq_true] at hcond
      cases e with
      | tabActivated tabId windowId =>
        exact ih _ (trackerInv_onActivated s tabId windowId hinv hcond.2) hrun
      | windowRemoved windowId =>
        exact ih _ (trackerInv_onWindowRemoved s windowId hinv) hrun
      | _ => simp [Event.isTracker] at hcond
    · cases hrun

/-! ## The active-tab tracker: theorems -/

/-- C3: for every state and every activation of tab `B` in window `W`, the
active set afterwards is the active set before, minus the tab that `W` was
mapped to (if any), plus `B`; the window map afterwards maps `W` to `B` and
every other window as before; in particular, if a tab `A` other than `B` was
the active tab of `W`, then afterwards `A` is not in the active set and `B`
is the active tab of `W`. -/
theorem onActivated_tracker (s : State) (B : TabId) (W : WindowId) :
    (∀ x, (onActivated B W s).activeTabIds.has x = true ↔
        (s.activeTabIds.has x = true ∧ s.activeTabIdByWindowId.get W ≠ some x) ∨ x = B) ∧
      (onActivated B W s).activeTabIdByWindowId.get W = some B ∧
      (∀ W1, W1 ≠ W →
        (onActivated B W s).activeTabIdByWindowId.get W1 = s.activeTabIdByWindowId.get W1) ∧
      (∀ A, A ≠ B → s.activeTabIdByWindowId.get W = some A →
        (onActivated B W s).activeTabIds.has A = false ∧
          (onActivated B W s).activeTabIdByWindowId.get W = some B) := by
  refine ⟨onActivated_has s B W, onActivated_get_self s B W,
    fun W1 h => onActivated_get_ne s B W W1 h, fun A hAB hA => ⟨?_, onActivated_get_self s B W⟩⟩
  rw [← Bool.not_eq_true, onActivated_has]
  rintro (⟨_, h⟩ | h)
  · exact h hA
  · exact hAB h

/-- C4: for every state and window `W`, the window-removed event takes the
tab mapped to `W`, and no other tab, out of the active set, and takes `W` out
of the window map, every other window staying as it was; when `W` has no
entry in the window map the state is unchanged. -/
theorem onWindowRemoved_tracker (s : State) (W : WindowId) :
    (∀ x, (onWindowRemoved W s).activeTabIds.has x = true ↔
        s.activeTabIds.has x = true ∧ s.activeTabIdByWindowId.get W ≠ some x) ∧
      (onWindowRemoved W s).activeTabIdByWindowId.get W = none ∧
      (∀ W1, W1 ≠ W →
        (onWindowRemoved W s).activeTabIdByWindowId.get W1 =
          s.activeTabIdByWindowId.get W1) ∧
      (s.activeTabIdByWindowId.get W = none → onWindowRemoved W s = s) :=
  ⟨onWindowRemoved_has s W, onWindowRemoved_get_self s W,
    fun W1 h => onWindowRemoved_get_ne s W W1 h, onWindowRemoved_of_get_none s W⟩

/-- C9, as stated, fails: after tab 1 was activated in window 1 and then in
window 2, tab 1 is in the active set and is the active tab of window 1, yet
activating tab 2 in window 2 takes tab 1 out of the active set. -/
theorem onActivated_other_window_counterexample :
    (onActivated 1 2 (onActivated 1 1 (State.init true))).activeTabIds.has 1 = true ∧
      (onActivated 1 2 (onActivated 1 1 (State.init true))).activeTabIdByWindowId.get 1 =
        some 1 ∧
      (2 : WindowId) ≠ 1 ∧
      (onActivated 2 2 (onActivated 1 2 (onActivated 1 1 (State.init true)))).activeTabIds.has 1 =
        false := by
  decide

/-- C9, amended: for every state in which tab `A` is in the active set and is
the active tab of window `W1`, and for every window `W2` other than `W1` that
is not mapped to `A`, and every tab `B`, activating `B` in `W2` leaves `A` in
the active set. -/
theorem onActivated_other_window (s : State) (A B : TabId) (W1 W2 : WindowId)
    (hA : s.activeTabIds.has A = true) (_hW1 : s.activeTabIdByWindowId.get W1 = some A)
    (_hne : W2 ≠ W1) (hW2 : s.activeTabIdByWindowId.get W2 ≠ some A) :
    (onActivated B W2 s).activeTabIds.has A = true :=
  (onActivated_has s B W2 A).2 (Or.inl ⟨hA, hW2⟩)

/-- C9, amended, at a concrete input: tab 1 is active in window 1, tab 2 is
activated in window 2. -/
theorem onActivated_other_window_witness :
    (onActivated 2 2 (onActivated 1 1 (State.init true))).activeTabIds.has 1 = true :=
  onActivated_other_window (onActivated 1 1 (State.init true)) 1 2 1 2
    (by decide) (by decide) (by decide) (by decide)

/-- C10, as stated, fails: from the empty state, activating tab 1 in window
1, then tab 1 in window 2, then tab 2 in window 2 leaves window 1 mapped to
tab 1 while tab 1 is not in the active set. -/
theorem mapped_tab_active_counterexample :
    ∃ s, run (State.init true) [.tabActivated 1 1, .tabActivated 1 2, .tabActivated 2 2] = some s ∧
      [Event.tabActivated 1 1, .tabActivated 1 2, .tabActivated 2 2].all Event.isTracker = true ∧
      s.activeTabIdByWindowId.get 1 = some 1 ∧ s.activeTabIds.has 1 = false :=
  ⟨_, rfl, by decide, by decide, by decide⟩

/-- C10, amended: in every state reached from an empty tracker state by a
sequence of tab-activated and window-removed events in which no tab is
activated in one window while another window is mapped to it, the tab of
every entry of the window map is in the active set. -/
theorem mapped_tab_active (s0 : State) (es : List Event) (s : State)
    (_hset : s0.activeTabIds = JsSet.empty) (hmap : s0.activeTabIdByWindowId = JsMap.empty)
    (hrun : runTracker s0 es = some s) (w : WindowId) (t : TabId)
    (hget : s.activeTabIdByWindowId.get w = some t) : s.activeTabIds.has t = true := by
  have hinit : TrackerInv s0 := by
    constructor
    · intro w1 t1 h
      rw [hmap] at h
      cases h
    · intro w1 w2 t1 h
      rw [hmap] at h
      cases h
  exact (trackerInv_runTracker es s0 s hinit hrun).1 w t hget

/-- C10, amended, at a concrete input: tab 1 activated in window 1, tab 2 in
window 2, tab 3 in window 2, window 1 removed; window 2 is mapped to tab 3. -/
theorem mapped_tab_active_witness :
    (onWindowRemoved 1 (onActivated 3 2 (onActivated 2 2 (onActivated 1 1 (State.init true))))
      ).activeTabIds.has 3 = true :=
  mapped_tab_active (State.init true)
    [.tabActivated 1 1, .tabActivated 2 2, .tabActivated 3 2, .windowRemoved 1] _
    rfl rfl rfl 2 3 (by decide)

/-! ## Facts about the badge scheduler -/

theorem foldl_updateBadgeStep (l : List TabId) (s : State) :
    l.foldl updateBadgeStep s =
      { s with badgeCalls :=
          s.badgeCalls ++ l.map fun id => (id, badgeOf (s.blockedPerPage.get ⟨id⟩)) } := by
  induction l generalizing s with
  | nil => simp
  | cons id ids ih =>
    rw [List.foldl_cons, ih]
    simp [updateBadgeStep, setBadge]

theorem updateBadge_eq (tabId : Option TabId) (s : State) :
    updateBadge tabId s =
      { s with badgeCalls :=
          s.badgeCalls ++
            if s.show_statsinicon then
              (badgeTargets tabId s).map fun id => (id, badgeOf (s.blockedPerPage.get ⟨id⟩))
            else [] } := by
  unfold updateBadge
  by_cases hpref : s.show_statsinicon = true
  · rw [if_neg (by simp [hpref]), if_pos hpref]
    exact foldl_updateBadgeStep _ s
  · rw [if_pos (by simpa using hpref), if_neg hpref, List.append_nil]

theorem scheduleBadgeUpdate_of_scheduled (tabId : Option TabId) (s : State)
    (hflag : s.badgeUpdateScheduled = true) : scheduleBadgeUpdate tabId s = s := by
  simp [scheduleBadgeUpdate, hflag]

theorem requestAll_of_scheduled (reqs : List (Option TabId)) (s : State)
    (hflag : s.badgeUpdateScheduled = true) : requestAll reqs s = s := by
  induction reqs with
  | nil => rfl
  | cons r rs ih =>
    unfold requestAll at ih ⊢
    rw [List.foldl_cons, scheduleBadgeUpdate_of_scheduled r s hflag]
    exact ih

theorem foldl_preserves {σ β : Type} (P : σ → Prop) (f : σ → β → σ)
    (hstep : ∀ s x, P s → P (f s x)) (l : List β) (s0 : σ) (h0 : P s0) :
    P (l.foldl f s0) := by
  induction l generalizing s0 with
  | nil => exact h0
  | cons x xs ih =>
    rw [List.foldl_cons]
    exact ih (f s0 x) (hstep _ _ h0)

theorem schedInv_scheduleBadgeUpdate (tabId : Option TabId) (s : State) (hinv : SchedInv s) :
    SchedInv (scheduleBadgeUpdate tabId s) := by
  unfold scheduleBadgeUpdate
  split
  · rename_i hcond
    unfold SchedInv at hinv ⊢
    cases hflag : s.badgeUpdateScheduled with
    | true => simp [hflag] at hcond
    | false =>
      rw [hflag] at hinv
      simp at hinv
      simp [hinv]
  · exact hinv

theorem schedInv_updateBadge (tabId : Option TabId) (s : State) (hinv : SchedInv s) :
    SchedInv (updateBadge tabId s) := by
  rw [updateBadge_eq]
  exact hinv

theorem schedInv_recordStep (filter : Filter) (s : State) (tabId : TabId) (hinv : SchedInv s) :
    SchedInv (recordStep filter s tabId) := by
  unfold recordStep
  apply schedInv_scheduleBadgeUpdate
  split <;> exact hinv

theorem schedInv_recordBlockedRequest (filter : Filter) (tabIds : List TabId) (s : State)
    (hinv : SchedInv s) : SchedInv (recordBlockedRequest filter tabIds s) := by
  unfold recordBlockedRequest
  split
  · exact hinv
  · have h : SchedInv (tabIds.foldl (recordStep filter) s) :=
      foldl_preserves SchedInv (recordStep filter)
        (fun st x hst => schedInv_recordStep filter st x hst) tabIds s hinv
    exact h

theorem schedInv_fireTimer (s s1 : State) (hinv : SchedInv s) (hfire : fireTimer s = some s1) :
    SchedInv s1 := by
  unfold fireTimer at hfire
  split at hfire
  · cases hfire
  · rename_i hpos
    simp only [Option.some.injEq] at hfire
    subst hfire
    apply schedInv_updateBadge
    unfold SchedInv at hinv ⊢
    cases hflag : s.badgeUpdateScheduled with
    | true =>
      rw [hflag] at hinv
      simp at hinv
      simp [hinv]
    | false =>
      rw [hflag] at hinv
      simp at hinv
      exact absurd hinv hpos

theorem schedInv_step (s s1 : State) (e : Event) (hinv : SchedInv s)
    (hstep : step s e = some s1) : SchedInv s1 := by
  cases e with
  | repaintRequest tabId =>
    simp only [step, Option.some.injEq] at hstep
    exact hstep ▸ schedInv_scheduleBadgeUpdate tabId s hinv
  | blockedRequest filter tabIds =>
    simp only [step, Option.some.injEq] at hstep
    exact hstep ▸ schedInv_recordBlockedRequest filter tabIds s hinv
  | tabActivated tabId windowId =>
    simp only [step, Option.some.injEq] at hstep
    subst hstep
    exact schedInv_scheduleBadgeUpdate _ _ hinv
  | windowRemoved windowId =>
    simp only [step, Option.some.injEq] at hstep
    subst hstep
    exact hinv
  | navigationCommitted frameId tabId =>
    simp only [step, Option.some.injEq] at hstep
    subst hstep
    unfold onCommitted
    split
    · exact schedInv_updateBadge _ _ hinv
    · exact hinv
  | timerFired => exact schedInv_fireTimer s s1 hinv hstep
  | activeTabsQueried tabs =>
    simp only [step, Option.some.injEq] at hstep
    subst hstep
    apply schedInv_scheduleBadgeUpdate
    refine foldl_preserves SchedInv _ ?_ tabs s hinv
    intro st x hst
    exact hst
  | prefSet value =>
    simp only [step, Option.some.injEq] at hstep
    subst hstep
    exact hinv
  | prefTabsQueried tabs =>
    simp only [step, Option.some.injEq] at hstep
    subst hstep
    refine foldl_preserves SchedInv _ (fun st x hst => ?_) tabs s hinv
    split
    · exact schedInv_updateBadge _ _ hst
    · exact hst
  | prefsLoaded =>
    simp only [step, Option.some.injEq] at hstep
    subst hstep
    exact hinv
  | untilLoadedRun =>
    simp only [step, runUntilLoaded] at hstep
    split at hstep
    · simp only [Option.some.injEq] at hstep
      subst hstep
      exact hinv
    · cases hstep

theorem schedInv_run (es : List Event) (s s1 : State) (hinv : SchedInv s)
    (hrun : run s es = some s1) : SchedInv s1 := by
  induction es generalizing s with
  | nil =>
    simp only [run, Option.some.injEq] at hrun
    exact hrun ▸ hinv
  | cons e es ih =>
    simp only [run] at hrun
    cases hstep : step s e with
    | none => simp [hstep] at hrun
    | some s2 =>
      rw [hstep] at hrun
      exact ih s2 (schedInv_step s s2 e hinv hstep) hrun

/-! ## The badge scheduler: theorems -/

/-- C5: for every `N ≥ 1`, starting from a state with no pending repaint
(flag clear, no timer) and badge display enabled, `N` repaint requests, each
without a tab id or with a tab id of the active set, made with no timer
firing in between, arm exactly one timer: the state afterwards is the
starting state with one timer and the flag set. That timer's firing is one
`updateBadge()` pass over the starting state, after which no timer is left to
fire. -/
theorem scheduleBadgeUpdate_coalesces (s : State) (N : Nat) (reqs : List (Option TabId))
    (hN : 1 ≤ N) (hlen : reqs.length = N)
    (hflag : s.badgeUpdateScheduled = false) (htimers : s.timers = 0)
    (hpref : s.show_statsinicon = true)
    (hreq : ∀ t, some t ∈ reqs → s.activeTabIds.has t = true) :
    requestAll reqs s = { s with timers := 1, badgeUpdateScheduled := true } ∧
      fireTimer (requestAll reqs s) = some (updateBadge none s) ∧
      fireTimer (updateBadge none s) = none := by
  have harmed : requestAll reqs s = { s with timers := 1, badgeUpdateScheduled := true } := by
    cases reqs with
    | nil =>
      simp only [List.length_nil] at hlen
      omega
    | cons r rs =>
      have hfirst : scheduleBadgeUpdate r s =
          { s with timers := 1, badgeUpdateScheduled := true } := by
        have hin : ∀ t, r = some t → s.activeTabIds.has t = true :=
          fun t ht => hreq t (ht ▸ List.mem_cons_self _ _)
        unfold scheduleBadgeUpdate
        cases r with
        | none => rw [if_pos (by simp [hflag, hpref]), htimers]
        | some t => rw [if_pos (by simp [hflag, hpref, hin t rfl]), htimers]
      show requestAll rs (scheduleBadgeUpdate r s) = _
      rw [hfirst]
      exact requestAll_of_scheduled rs _ rfl
  have hback : ({ s with timers := 1 - 1, badgeUpdateScheduled := false } : State) = s := by
    cases s
    simp only at hflag htimers
    subst hflag htimers
    rfl
  refine ⟨harmed, ?_, ?_⟩
  · rw [harmed]
    unfold fireTimer
    rw [if_neg (by simp)]
    exact congrArg (fun st => some (updateBadge none st)) hback
  · unfold fireTimer
    rw [if_pos (by rw [updateBadge_eq]; exact htimers)]

/-- C5 at a concrete input: three requests, for no tab and for the active
tab 1, in a state where tab 1 is the active tab of window 1. -/
theorem scheduleBadgeUpdate_coalesces_witness :
    requestAll [none, some 1, none]
        { State.init true with activeTabIds := ⟨[1]⟩, activeTabIdByWindowId := ⟨[(1, 1)]⟩ } =
      { State.init true with
        activeTabIds := ⟨[1]⟩, activeTabIdByWindowId := ⟨[(1, 1)]⟩,
        timers := 1, badgeUpdateScheduled := true } ∧
    fireTimer (requestAll [none, some 1, none]
        { State.init true with activeTabIds := ⟨[1]⟩, activeTabIdByWindowId := ⟨[(1, 1)]⟩ }) =
      some (updateBadge none
        { State.init true with activeTabIds := ⟨[1]⟩, activeTabIdByWindowId := ⟨[(1, 1)]⟩ }) ∧
    fireTimer (updateBadge none
        { State.init true with activeTabIds := ⟨[1]⟩, activeTabIdByWindowId := ⟨[(1, 1)]⟩ }) =
      none :=
  scheduleBadgeUpdate_coalesces
    { State.init true with activeTabIds := ⟨[1]⟩, activeTabIdByWindowId := ⟨[(1, 1)]⟩ }
    3 [none, some 1, none] (by decide) rfl rfl rfl rfl
    (by
      intro t ht
      simp only [List.mem_cons, Option.some.injEq, List.mem_singleton, reduceCtorEq,
        false_or, or_false, List.not_mem_nil] at ht
      subst ht
      decide)

/-- C6: in every state reached from a state with the flag clear and no timer
by any sequence of repaint requests, block records, tab and window events,
timer firings and the module's other events, at most one repaint timer is
pending, and exactly one is pending if and only if `badgeUpdateScheduled` is
true. -/
theorem at_most_one_timer (s0 : State) (es : List Event) (s : State)
    (hflag : s0.badgeUpdateScheduled = false) (htimers : s0.timers = 0)
    (hrun : run s0 es = some s) :
    s.timers ≤ 1 ∧ (s.timers = 1 ↔ s.badgeUpdateScheduled = true) := by
  have hinit : SchedInv s0 := by
    unfold SchedInv
    rw [hflag, htimers]
    rfl
  have hinv := schedInv_run es s0 s hinit hrun
  unfold SchedInv at hinv
  cases hs : s.badgeUpdateScheduled with
  | true =>
    rw [hs] at hinv
    simp at hinv
    simp [hinv]
  | false =>
    rw [hs] at hinv
    simp at hinv
    simp [hinv]

/-- C6 at a concrete input: two repaint requests, a block for tab 1, a timer
firing, an activation and a further block. -/
theorem at_most_one_timer_witness :
    ∃ s, run (State.init true)
        [.repaintRequest none, .repaintRequest none, .blockedRequest ⟨true, "ads"⟩ [1],
          .timerFired, .tabActivated 1 1, .blockedRequest ⟨true, "ads"⟩ [1]] = some s ∧
      s.timers ≤ 1 ∧ (s.timers = 1 ↔ s.badgeUpdateScheduled = true) :=
  ⟨_, rfl, at_most_one_timer (State.init true)
    [.repaintRequest none, .repaintRequest none, .blockedRequest ⟨true, "ads"⟩ [1],
      .timerFired, .tabActivated 1 1, .blockedRequest ⟨true, "ads"⟩ [1]] _ rfl rfl rfl⟩

/-- C7, as stated, fails: with badge display enabled and no count stored for
tab 7, `updateBadge(7)` issues the instruction with the value `undefined`,
not `null`. -/
theorem updateBadge_draws_counterexample :
    (updateBadge (some 7) (State.init true)).badgeCalls = [(7, BadgeArg.undefined)] ∧
      (updateBadge (some 7) (State.init true)).badgeCalls ≠ [(7, BadgeArg.null)] := by
  decide

/-- C7, amended: with badge display enabled, `updateBadge` issues one
badge-draw instruction for each target tab, in order; its value is
`undefined` when the page has no stored count, the number 0 when the stored
count is 0 (what the expression `blockedCount && ...` yields, in neither case
`null`), and otherwise is exactly the colour `"#646464"` with the page's
stored, unrounded count. -/
theorem updateBadge_draws (s : State) (tabId : Option TabId)
    (hpref : s.show_statsinicon = true) :
    ∃ calls, (updateBadge tabId s).badgeCalls = s.badgeCalls ++ calls ∧
      List.Forall₂
        (fun id call =>
          call.1 = id ∧
            (s.blockedPerPage.get ⟨id⟩ = none → call.2 = .undefined) ∧
            (s.blockedPerPage.get ⟨id⟩ = some 0 → call.2 = .number 0) ∧
            ∀ count, s.blockedPerPage.get ⟨id⟩ = some count → count ≠ 0 →
              call.2 = .badge "#646464" count)
        (badgeTargets tabId s) calls := by
  refine ⟨(badgeTargets tabId s).map fun id => (id, badgeOf (s.blockedPerPage.get ⟨id⟩)), ?_, ?_⟩
  · rw [updateBadge_eq, if_pos hpref]
  · rw [List.forall₂_map_right_iff]
    apply List.forall₂_same.2
    intro id _
    refine ⟨rfl, ?_, ?_, ?_⟩
    · intro h
      rw [h]
      rfl
    · intro h
      rw [h]
      simp [badgeOf]
    · intro count h hne
      rw [h]
      simp [badgeOf, hne, badgeColor]

/-- C7, amended, at a concrete input: tab 7, with one block recorded, is
repainted. -/
theorem updateBadge_draws_witness :
    ∃ calls,
      (updateBadge (some 7) (recordBlockedRequest ⟨true, "ads"⟩ [7] (State.init true))).badgeCalls =
        (recordBlockedRequest ⟨true, "ads"⟩ [7] (State.init true)).badgeCalls ++ calls ∧
      List.Forall₂
        (fun id call =>
          call.1 = id ∧
            ((recordBlockedRequest ⟨true, "ads"⟩ [7] (State.init true)).blockedPerPage.get ⟨id⟩ =
                none → call.2 = .undefined) ∧
            ((recordBlockedRequest ⟨true, "ads"⟩ [7] (State.init true)).blockedPerPage.get ⟨id⟩ =
                some 0 → call.2 = .number 0) ∧
            ∀ count,
              (recordBlockedRequest ⟨true, "ads"⟩ [7] (State.init true)).blockedPerPage.get ⟨id⟩ =
                some count → count ≠ 0 → call.2 = .badge "#646464" count)
        (badgeTargets (some 7) (recordBlockedRequest ⟨true, "ads"⟩ [7] (State.init true))) calls :=
  updateBadge_draws (recordBlockedRequest ⟨true, "ads"⟩ [7] (State.init true)) (some 7) rfl

/-! ## The active-tab tracker: the active set is covered by the window map -/

theorem mappedInv_onActivated (s : State) (tabId : TabId) (windowId : WindowId)
    (hinv : MappedInv s) : MappedInv (onActivated tabId windowId s) := by
  intro t ht
  rw [onActivated_has] at ht
  rcases ht with ⟨hold, hne⟩ | rfl
  · obtain ⟨w, hw⟩ := hinv t hold
    have hww : w ≠ windowId := fun h => hne (h ▸ hw)
    exact ⟨w, by rw [onActivated_get_ne s tabId windowId w hww]; exact hw⟩
  · exact ⟨windowId, onActivated_get_self s t windowId⟩

theorem mappedInv_onWindowRemoved (s : State) (windowId : WindowId) (hinv : MappedInv s) :
    MappedInv (onWindowRemoved windowId s) := by
  intro t ht
  rw [onWindowRemoved_has] at ht
  obtain ⟨hold, hne⟩ := ht
  obtain ⟨w, hw⟩ := hinv t hold
  have hww : w ≠ windowId := fun h => hne (h ▸ hw)
  exact ⟨w, by rw [onWindowRemoved_get_ne s windowId w hww]; exact hw⟩

theorem mappedInv_run (es : List Event) (s s1 : State) (hinv : MappedInv s)
    (hev : es.all Event.isTracker = true) (hrun : run s es = some s1) : MappedInv s1 := by
  induction es generalizing s with
  | nil =>
    simp only [run, Option.some.injEq] at hrun
    exact hrun ▸ hinv
  | cons e es ih =>
    rw [List.all_cons, Bool.and_eq_true] at hev
    cases e with
    | tabActivated tabId windowId =>
      exact ih _ (mappedInv_onActivated s tabId windowId hinv) hev.2 hrun
    | windowRemoved windowId =>
      exact ih _ (mappedInv_onWindowRemoved s windowId hinv) hev.2 hrun
    | _ => simp [Event.isTracker] at hev

/-- C11: in every state reached from an empty tracker state by any sequence
of tab-activated and window-removed events, a tab is in the active set only
if some window of the window map is mapped to it, that is, only if it is the
tab most recently activated in a window that is still present. -/
theorem active_tab_is_mapped (s0 : State) (es : List Event) (s : State)
    (hset : s0.activeTabIds = JsSet.empty) (_hmap : s0.activeTabIdByWindowId = JsMap.empty)
    (hev : es.all Event.isTracker = true) (hrun : run s0 es = some s)
    (t : TabId) (hin : s.activeTabIds.has t = true) :
    ∃ w, s.activeTabIdByWindowId.get w = some t := by
  have hinit : MappedInv s0 := by
    intro x hx
    rw [hset] at hx
    simp [JsSet.empty, JsSet.has] at hx
  exact mappedInv_run es s0 s hinit hev hrun t hin

/-- C11 at a concrete input: tab 1 activated in windows 1 and 2, tab 2 in
window 2, window 1 removed; tab 2 is active and window 2 is mapped to it. -/
theorem active_tab_is_mapped_witness :
    ∃ w, (onWindowRemoved 1 (onActivated 2 2 (onActivated 1 2 (onActivated 1 1
      (State.init true))))).activeTabIdByWindowId.get w = some 2 :=
  active_tab_is_mapped (State.init true)
    [.tabActivated 1 1, .tabActivated 1 2, .tabActivated 2 2, .windowRemoved 1] _
    rfl rfl (by decide) rfl 2 (by decide)

/-! ## Facts about what the handlers leave alone -/

theorem frame_refl (s : State) : Frame s s := ⟨rfl, rfl, le_refl _, le_refl _⟩

theorem frame_trans {s s1 s2 : State} (h1 : Frame s s1) (h2 : Frame s1 s2) : Frame s s2 :=
  ⟨h2.1.trans h1.1, h2.2.1.trans h1.2.1, h1.2.2.1.trans h2.2.2.1, h1.2.2.2.trans h2.2.2.2⟩

theorem frame_foldl {β : Type} (f : State → β → State) (hstep : ∀ st x, Frame st (f st x))
    (l : List β) (s : State) : Frame s (l.foldl f s) :=
  foldl_preserves (Frame s) f (fun st x hst => frame_trans hst (hstep st x)) l s (frame_refl s)

theorem frame_scheduleBadgeUpdate (tabId : Option TabId) (s : State) :
    Frame s (scheduleBadgeUpdate tabId s) := by
  rcases scheduleBadgeUpdate_cases tabId s with h | h <;> rw [h]
  · exact frame_refl s
  · exact ⟨rfl, rfl, Nat.le_succ _, le_refl _⟩

theorem frame_updateBadge (tabId : Option TabId) (s : State) :
    Frame s (updateBadge tabId s) := by
  rw [updateBadge_eq]
  exact ⟨rfl, rfl, le_refl _, le_refl _⟩

theorem frame_recordStep (filter : Filter) (s : State) (tabId : TabId) :
    Frame s (recordStep filter s tabId) := by
  unfold recordStep
  refine frame_trans ?_ (frame_scheduleBadgeUpdate _ _)
  split <;> exact ⟨rfl, rfl, le_refl _, le_refl _⟩

theorem frame_recordBlockedRequest (filter : Filter) (tabIds : List TabId) (s : State) :
    Frame s (recordBlockedRequest filter tabIds s) := by
  unfold recordBlockedRequest
  split
  · exact frame_refl s
  · exact frame_trans (frame_foldl (recordStep filter) (frame_recordStep filter) tabIds s)
      ⟨rfl, rfl, le_refl _, Nat.le_succ _⟩

theorem frame_onActivated (tabId : TabId) (windowId : WindowId) (s : State) :
    Frame s (onActivated tabId windowId s) := by
  unfold onActivated
  exact frame_trans ⟨rfl, rfl, le_refl _, le_refl _⟩ (frame_scheduleBadgeUpdate _ _)

theorem frame_onWindowRemoved (windowId : WindowId) (s : State) :
    Frame s (onWindowRemoved windowId s) :=
  ⟨rfl, rfl, le_refl _, le_refl _⟩

theorem frame_onCommitted (frameId : Int) (tabId : TabId) (s : State) :
    Frame s (onCommitted frameId tabId s) := by
  unfold onCommitted
  split
  · exact frame_updateBadge _ _
  · exact frame_refl s

theorem frame_onActiveTabsQueried (tabs : List (TabId × WindowId)) (s : State) :
    Frame s (onActiveTabsQueried tabs s) := by
  unfold onActiveTabsQueried
  refine frame_trans (frame_foldl _ ?_ tabs s) (frame_scheduleBadgeUpdate _ _)
  intro st x
  exact ⟨rfl, rfl, le_refl _, le_refl _⟩

theorem frame_onPrefTabsQueried (tabs : List TabId) (s : State) :
    Frame s (onPrefTabsQueried tabs s) := by
  unfold onPrefTabsQueried
  refine frame_foldl _ ?_ tabs s
  intro st x
  split
  · exact frame_updateBadge _ _
  · exact ⟨rfl, rfl, le_refl _, le_refl _⟩

theorem timers_le_step (s s1 : State) (e : Event) (hne : e ≠ .timerFired)
    (hstep : step s e = some s1) : s.timers ≤ s1.timers := by
  cases e with
  | timerFired => exact absurd rfl hne
  | repaintRequest tabId =>
    simp only [step, Option.some.injEq] at hstep
    exact hstep ▸ (frame_scheduleBadgeUpdate tabId s).2.2.1
  | blockedRequest filter tabIds =>
    simp only [step, Option.some.injEq] at hstep
    exact hstep ▸ (frame_recordBlockedRequest filter tabIds s).2.2.1
  | tabActivated tabId windowId =>
    simp only [step, Option.some.injEq] at hstep
    exact hstep ▸ (frame_onActivated tabId windowId s).2.2.1
  | windowRemoved windowId =>
    simp only [step, Option.some.injEq] at hstep
    exact hstep ▸ (frame_onWindowRemoved windowId s).2.2.1
  | navigationCommitted frameId tabId =>
    simp only [step, Option.some.injEq] at hstep
    exact hstep ▸ (frame_onCommitted frameId tabId s).2.2.1
  | activeTabsQueried tabs =>
    simp only [step, Option.some.injEq] at hstep
    exact hstep ▸ (frame_onActiveTabsQueried tabs s).2.2.1
  | prefSet value =>
    simp only [step, Option.some.injEq] at hstep
    exact hstep ▸ le_refl _
  | prefTabsQueried tabs =>
    simp only [step, Option.some.injEq] at hstep
    exact hstep ▸ (frame_onPrefTabsQueried tabs s).2.2.1
  | prefsLoaded =>
    simp only [step, Option.some.injEq] at hstep
    exact hstep ▸ le_refl _
  | untilLoadedRun =>
    simp only [step, runUntilLoaded] at hstep
    split at hstep
    · simp only [Option.some.injEq] at hstep
      exact hstep ▸ le_refl _
    · cases hstep

theorem timers_le_run (es : List Event) (s s1 : State) (hquiet : Event.timerFired ∉ es)
    (hrun : run s es = some s1) : s.timers ≤ s1.timers := by
  induction es generalizing s with
  | nil =>
    simp only [run, Option.some.injEq] at hrun
    exact hrun ▸ le_refl _
  | cons e es ih =>
    simp only [run] at hrun
    cases hstep : step s e with
    | none => simp [hstep] at hrun
    | some s2 =>
      rw [hstep] at hrun
      have hne : e ≠ .timerFired := fun h => hquiet (h ▸ List.mem_cons_self _ _)
      exact (timers_le_step s s2 e hne hstep).trans
        (ih s2 (fun h => hquiet (List.mem_cons_of_mem _ h)) hrun)

/-! ## The badge scheduler: what a firing repaints -/

/-- C12, as stated, fails: with tabs 1 and 2 active (in windows 1 and 2) and
no repaint pending, the request `scheduleBadgeUpdate(1)` arms the timer, and
the firing of that timer repaints tab 1 and tab 2, not tab 1 alone. -/
theorem timer_repaints_requested_tab_counterexample :
    ∃ s0 s2,
      run (State.init true) [.tabActivated 1 1, .tabActivated 2 2, .timerFired] = some s0 ∧
      (scheduleBadgeUpdate (some 1) s0).timers = s0.timers + 1 ∧
      fireTimer (scheduleBadgeUpdate (some 1) s0) = some s2 ∧
      (s2.badgeCalls.drop s0.badgeCalls.length).map Prod.fst = [1, 2] :=
  ⟨_, _, rfl, by decide, rfl, by decide⟩

/-- C12, amended: when a repaint request, with or without a tab id, arms the
timer, then after any events other than a firing the timer fires, and the
firing clears the pending flag and repaints every tab of the active set at
firing time, each once, in order, if badge display is enabled at that time,
and no tab otherwise. -/
theorem timer_repaints_active_set (s : State) (tabId : Option TabId) (es : List Event)
    (s1 : State)
    (harm : (scheduleBadgeUpdate tabId s).timers = s.timers + 1)
    (hquiet : Event.timerFired ∉ es)
    (hrun : run (scheduleBadgeUpdate tabId s) es = some s1) :
    ∃ s2, fireTimer s1 = some s2 ∧ s2.badgeUpdateScheduled = false ∧
      s2.badgeCalls =
        s1.badgeCalls ++
          if s1.show_statsinicon then
            s1.activeTabIds.items.map fun id => (id, badgeOf (s1.blockedPerPage.get ⟨id⟩))
          else [] := by
  have hle := timers_le_run es _ s1 hquiet hrun
  have hpos : s1.timers ≠ 0 := by omega
  refine ⟨updateBadge none { s1 with timers := s1.timers - 1, badgeUpdateScheduled := false },
    ?_, ?_, ?_⟩
  · unfold fireTimer
    rw [if_neg hpos]
  · rw [updateBadge_eq]
  · rw [updateBadge_eq]
    rfl

/-- C12, amended, at a concrete input: tabs 1 and 2 are active, a request
for tab 1 arms the timer, a block is recorded for tab 2, the timer fires and
repaints tabs 1 and 2. -/
theorem timer_repaints_active_set_witness :
    ∃ s2,
      fireTimer (recordBlockedRequest ⟨true, "ads"⟩ [2] (scheduleBadgeUpdate (some 1)
        { State.init true with
          activeTabIds := ⟨[1, 2]⟩, activeTabIdByWindowId := ⟨[(1, 1), (2, 2)]⟩ })) = some s2 ∧
      s2.badgeUpdateScheduled = false ∧
      s2.badgeCalls =
        (recordBlockedRequest ⟨true, "ads"⟩ [2] (scheduleBadgeUpdate (some 1)
          { State.init true with
            activeTabIds := ⟨[1, 2]⟩,
            activeTabIdByWindowId := ⟨[(1, 1), (2, 2)]⟩ })).badgeCalls ++
          if (recordBlockedRequest ⟨true, "ads"⟩ [2] (scheduleBadgeUpdate (some 1)
            { State.init true with
              activeTabIds := ⟨[1, 2]⟩,
              activeTabIdByWindowId := ⟨[(1, 1), (2, 2)]⟩ })).show_statsinicon then
            (recordBlockedRequest ⟨true, "ads"⟩ [2] (scheduleBadgeUpdate (some 1)
              { State.init true with
                activeTabIds := ⟨[1, 2]⟩,
                activeTabIdByWindowId := ⟨[(1, 1), (2, 2)]⟩ })).activeTabIds.items.map
              fun id => (id, badgeOf ((recordBlockedRequest ⟨true, "ads"⟩ [2]
                (scheduleBadgeUpdate (some 1)
                  { State.init true with
                    activeTabIds := ⟨[1, 2]⟩,
                    activeTabIdByWindowId := ⟨[(1, 1), (2, 2)]⟩ })).blockedPerPage.get ⟨id⟩))
          else [] :=
  timer_repaints_active_set
    { State.init true with
      activeTabIds := ⟨[1, 2]⟩, activeTabIdByWindowId := ⟨[(1, 1), (2, 2)]⟩ }
    (some 1) [.blockedRequest ⟨true, "ads"⟩ [2]] _ (by decide) (by decide) rfl

/-! ## The badge scheduler: requests that are dropped -/

theorem scheduleBadgeUpdate_of_not_active (s : State) (t : TabId)
    (hnot : s.activeTabIds.has t = false) : scheduleBadgeUpdate (some t) s = s := by
  simp [scheduleBadgeUpdate, hnot]

theorem recordStep_of_not_active (filter : Filter) (s : State) (t : TabId)
    (hnot : s.activeTabIds.has t = false) :
    (recordStep filter s t).activeTabIds = s.activeTabIds ∧
      (recordStep filter s t).timers = s.timers ∧
      (recordStep filter s t).badgeUpdateScheduled = s.badgeUpdateScheduled := by
  have hdrop : ∀ pp : PageMap,
      scheduleBadgeUpdate (some t) { s with blockedPerPage := pp } =
        { s with blockedPerPage := pp } :=
    fun pp => scheduleBadgeUpdate_of_not_active { s with blockedPerPage := pp } t hnot
  unfold recordStep
  split
  · dsimp only
    rw [hdrop]
    exact ⟨rfl, rfl, rfl⟩
  · dsimp only
    rw [hdrop]
    exact ⟨rfl, rfl, rfl⟩

theorem foldl_recordStep_of_not_active (filter : Filter) (tabIds : List TabId) (s st : State)
    (hnot : ∀ t ∈ tabIds, s.activeTabIds.has t = false)
    (hst : st.activeTabIds = s.activeTabIds ∧ st.timers = s.timers ∧
      st.badgeUpdateScheduled = s.badgeUpdateScheduled) :
    (tabIds.foldl (recordStep filter) st).timers = s.timers ∧
      (tabIds.foldl (recordStep filter) st).badgeUpdateScheduled = s.badgeUpdateScheduled := by
  induction tabIds generalizing st with
  | nil => exact hst.2
  | cons t ts ih =>
    rw [List.foldl_cons]
    have ht : st.activeTabIds.has t = false := by
      rw [hst.1]
      exact hnot t (List.mem_cons_self _ _)
    obtain ⟨h1, h2, h3⟩ := recordStep_of_not_active filter st t ht
    exact ih (recordStep filter st t) (fun u hu => hnot u (List.mem_cons_of_mem _ hu))
      ⟨h1.trans hst.1, h2.trans hst.2.1, h3.trans hst.2.2⟩

/-- C13: for every state and every tab id that is not in the active set,
`scheduleBadgeUpdate(tabId)` returns the state as it was: no timer is armed,
the flag and everything else stay. Consequently `recordBlockedRequest` with
tab ids that are all outside the active set arms no timer and leaves the flag
as it was. -/
theorem scheduleBadgeUpdate_inactive (s : State) :
    (∀ t, s.activeTabIds.has t = false → scheduleBadgeUpdate (some t) s = s) ∧
      ∀ (filter : Filter) (tabIds : List TabId),
        (∀ t ∈ tabIds, s.activeTabIds.has t = false) →
          (recordBlockedRequest filter tabIds s).timers = s.timers ∧
            (recordBlockedRequest filter tabIds s).badgeUpdateScheduled =
              s.badgeUpdateScheduled := by
  refine ⟨fun t ht => scheduleBadgeUpdate_of_not_active s t ht, fun filter tabIds hnot => ?_⟩
  unfold recordBlockedRequest
  split
  · exact ⟨rfl, rfl⟩
  · exact foldl_recordStep_of_not_active filter tabIds s s hnot ⟨rfl, rfl, rfl⟩

/-- C13 at a concrete input: tab 1 is active, a request and a block for
tab 2 arm nothing. -/
theorem scheduleBadgeUpdate_inactive_witness :
    scheduleBadgeUpdate (some 2)
        { State.init true with activeTabIds := ⟨[1]⟩, activeTabIdByWindowId := ⟨[(1, 1)]⟩ } =
      { State.init true with activeTabIds := ⟨[1]⟩, activeTabIdByWindowId := ⟨[(1, 1)]⟩ } ∧
    (recordBlockedRequest ⟨true, "ads"⟩ [2, 2]
        { State.init true with
          activeTabIds := ⟨[1]⟩, activeTabIdByWindowId := ⟨[(1, 1)]⟩ }).timers = 0 ∧
    (recordBlockedRequest ⟨true, "ads"⟩ [2, 2]
        { State.init true with
          activeTabIds := ⟨[1]⟩,
          activeTabIdByWindowId := ⟨[(1, 1)]⟩ }).badgeUpdateScheduled = false :=
  ⟨(scheduleBadgeUpdate_inactive _).1 2 (by decide),
    (scheduleBadgeUpdate_inactive _).2 ⟨true, "ads"⟩ [2, 2] (by decide)⟩

/-- C14: when badge display is disabled, for every state and every optional
tab id, `scheduleBadgeUpdate` and `updateBadge` both return the state as it
was: no timer is armed, the pending flag stays, no badge-draw instruction is
issued; both are total, so neither raises an error. -/
theorem badge_disabled_noop (s : State) (tabId : Option TabId)
    (hoff : s.show_statsinicon = false) :
    scheduleBadgeUpdate tabId s = s ∧ updateBadge tabId s = s := by
  constructor
  · simp [scheduleBadgeUpdate, hoff]
  · simp [updateBadge, hoff]

/-- C14 at a concrete input: badge display off, tab 1 active, a request and
a repaint for tab 1. -/
theorem badge_disabled_noop_witness :
    scheduleBadgeUpdate (some 1)
        { State.init false with activeTabIds := ⟨[1]⟩, activeTabIdByWindowId := ⟨[(1, 1)]⟩ } =
      { State.init false with activeTabIds := ⟨[1]⟩, activeTabIdByWindowId := ⟨[(1, 1)]⟩ } ∧
    updateBadge (some 1)
        { State.init false with activeTabIds := ⟨[1]⟩, activeTabIdByWindowId := ⟨[(1, 1)]⟩ } =
      { State.init false with activeTabIds := ⟨[1]⟩, activeTabIdByWindowId := ⟨[(1, 1)]⟩ } :=
  badge_disabled_noop _ (some 1) rfl

/-- C15: for every state and page, `getBlockedPerPage(page)` is the stored
count of the page, or 0 if none is stored; it only reads the state. The
handler of `"stats.getBlockedPerPage"` returns exactly this value for the
page of `message.tab`: a stored count comes back as it is, fraction
included, not floored. -/
theorem getBlockedPerPage_reads (s : State) (page : Page) :
    getBlockedPerPage s page = (s.blockedPerPage.get page).getD 0 ∧
      onGetBlockedPerPage page s = getBlockedPerPage s page ∧
      ∀ count, s.blockedPerPage.get page = some count → onGetBlockedPerPage page s = count := by
  have hget : getBlockedPerPage s page = (s.blockedPerPage.get page).getD 0 := by
    unfold getBlockedPerPage
    cases s.blockedPerPage.get page with
    | none => rfl
    | some v => exact orZero_some v
  refine ⟨hget, rfl, fun count hc => ?_⟩
  show getBlockedPerPage s page = count
  rw [hget, hc]
  rfl

/-! ## The active-tab tracker: repeated activation -/

theorem JsMap.update_update_self {κ ν : Type} [DecidableEq κ] (k : κ) (v : ν)
    (l : List (κ × ν)) : JsMap.update k v (JsMap.update k v l) = JsMap.update k v l := by
  induction l with
  | nil => simp [JsMap.update]
  | cons e rest ih =>
    by_cases h : e.1 = k
    · simp [JsMap.update, h]
    · simp [JsMap.update, h, ih]

theorem onActivated_map (s : State) (tabId : TabId) (windowId : WindowId) :
    (onActivated tabId windowId s).activeTabIdByWindowId =
      s.activeTabIdByWindowId.set windowId tabId := by
  unfold onActivated
  rw [scheduleBadgeUpdate_activeTabIdByWindowId]

/-- C16: tab activation is idempotent on the tracker state: for every state,
tab `T` and window `W`, activating `T` in `W` twice gives an active set with
the same members, and the same window map, as activating it once. From the
empty state, activating tab 3 in window 1 gives the active set {3} and the
window map {1: 3}, and activating it again gives the same. -/
theorem onActivated_idempotent (s : State) (T : TabId) (W : WindowId) (b : Bool) :
    (∀ x, (onActivated T W (onActivated T W s)).activeTabIds.has x =
        (onActivated T W s).activeTabIds.has x) ∧
      (onActivated T W (onActivated T W s)).activeTabIdByWindowId =
        (onActivated T W s).activeTabIdByWindowId ∧
      (onActivated 3 1 (State.init b)).activeTabIds = ⟨[3]⟩ ∧
      (onActivated 3 1 (State.init b)).activeTabIdByWindowId = ⟨[(1, 3)]⟩ ∧
      (onActivated 3 1 (onActivated 3 1 (State.init b))).activeTabIds = ⟨[3]⟩ ∧
      (onActivated 3 1 (onActivated 3 1 (State.init b))).activeTabIdByWindowId = ⟨[(1, 3)]⟩ := by
  refine ⟨fun x => ?_, ?_, ?_, ?_, ?_, ?_⟩
  · rw [Bool.eq_iff_iff, onActivated_has, onActivated_get_self]
    constructor
    · rintro (⟨h, _⟩ | h)
      · exact h
      · rw [h, onActivated_has]
        exact Or.inr rfl
    · intro h
      by_cases hx : x = T
      · exact Or.inr hx
      · exact Or.inl ⟨h, fun h1 => hx (Option.some.inj h1).symm⟩
  · rw [onActivated_map, onActivated_map]
    simp only [JsMap.set, JsMap.update_update_self]
  · cases b <;> decide
  · cases b <;> decide
  · cases b <;> decide
  · cases b <;> decide

/-! ## The counter store: the worked example -/

/-- C17: starting with no count recorded for tab 7, recording a blocking
filter with pattern text `"googletagmanager"` for tab 7 makes the count of
tab 7 equal to 0.001, the pattern being tracker-like, and then recording a
blocking filter with pattern text `"/ads/banner"` for tab 7 makes it 1.001,
no pattern of `arrayPrivacy` matching `"/ads/banner"`. -/
theorem recordBlockedRequest_example (s : State)
    (habsent : s.blockedPerPage.get ⟨7⟩ = none) :
    isTrackerLike "googletagmanager" = true ∧
      getBlockedPerPage (recordBlockedRequest ⟨true, "googletagmanager"⟩ [7] s) ⟨7⟩ = 1 / 1000 ∧
      isTrackerLike "/ads/banner" = false ∧
      getBlockedPerPage
          (recordBlockedRequest ⟨true, "/ads/banner"⟩ [7]
            (recordBlockedRequest ⟨true, "googletagmanager"⟩ [7] s)) ⟨7⟩ =
        1001 / 1000 := by
  have htracker : isTrackerLike "googletagmanager" = true := by decide
  have hads : isTrackerLike "/ads/banner" = false := by decide
  have hzero : getBlockedPerPage s ⟨7⟩ = 0 := by
    unfold getBlockedPerPage
    rw [habsent]
    rfl
  have hfirst :
      getBlockedPerPage (recordBlockedRequest ⟨true, "googletagmanager"⟩ [7] s) ⟨7⟩ =
        1 / 1000 := by
    unfold getBlockedPerPage
    rw [recordBlockedRequest_blockedPerPage _ _ _ rfl]
    have h := foldl_recordStep_getBlockedPerPage ⟨true, "googletagmanager"⟩ [7] ⟨7⟩ s
    unfold getBlockedPerPage at h hzero
    rw [h, hzero, htracker]
    norm_num
  refine ⟨htracker, hfirst, hads, ?_⟩
  unfold getBlockedPerPage at hfirst ⊢
  rw [recordBlockedRequest_blockedPerPage _ _ _ rfl]
  have h := foldl_recordStep_getBlockedPerPage ⟨true, "/ads/banner"⟩ [7] ⟨7⟩
    (recordBlockedRequest ⟨true, "googletagmanager"⟩ [7] s)
  unfold getBlockedPerPage at h
  rw [h, hfirst, hads]
  norm_num

/-- C17 at a concrete input: the state right after start-up. -/
theorem recordBlockedRequest_example_witness :
    isTrackerLike "googletagmanager" = true ∧
      getBlockedPerPage
          (recordBlockedRequest ⟨true, "googletagmanager"⟩ [7] (State.init true)) ⟨7⟩ =
        1 / 1000 ∧
      isTrackerLike "/ads/banner" = false ∧
      getBlockedPerPage
          (recordBlockedRequest ⟨true, "/ads/banner"⟩ [7]
            (recordBlockedRequest ⟨true, "googletagmanager"⟩ [7] (State.init true))) ⟨7⟩ =
        1001 / 1000 :=
  recordBlockedRequest_example (State.init true) (by decide)

/-! ## The lifetime total -/

theorem scheduleBadgeUpdate_untilLoadedPending (tabId : Option TabId) (s : State) :
    (scheduleBadgeUpdate tabId s).untilLoadedPending = s.untilLoadedPending := by
  rcases scheduleBadgeUpdate_cases tabId s with h | h <;> rw [h]

theorem recordStep_untilLoadedPending (filter : Filter) (s : State) (tabId : TabId) :
    (recordStep filter s tabId).untilLoadedPending = s.untilLoadedPending := by
  unfold recordStep
  simp only [scheduleBadgeUpdate_untilLoadedPending]
  split <;> rfl

theorem foldl_recordStep_untilLoadedPending (filter : Filter) (tabIds : List TabId)
    (s : State) :
    (tabIds.foldl (recordStep filter) s).untilLoadedPending = s.untilLoadedPending :=
  foldl_preserves (fun st => st.untilLoadedPending = s.untilLoadedPending) (recordStep filter)
    (fun st x hst => (recordStep_untilLoadedPending filter st x).trans hst) tabIds s rfl

theorem total_kept_step (s s1 : State) (e : Event) (hnot : s.prefsLoaded = false)
    (hne : e ≠ .prefsLoaded) (hstep : step s e = some s1) :
    s1.prefsLoaded = false ∧ s1.blocked_total = s.blocked_total := by
  have hframe : ∀ st, Frame s st → st.prefsLoaded = false ∧ st.blocked_total = s.blocked_total :=
    fun st h => ⟨h.1.trans hnot, h.2.1⟩
  cases e with
  | prefsLoaded => exact absurd rfl hne
  | repaintRequest tabId =>
    simp only [step, Option.some.injEq] at hstep
    exact hstep ▸ hframe _ (frame_scheduleBadgeUpdate tabId s)
  | blockedRequest filter tabIds =>
    simp only [step, Option.some.injEq] at hstep
    exact hstep ▸ hframe _ (frame_recordBlockedRequest filter tabIds s)
  | tabActivated tabId windowId =>
    simp only [step, Option.some.injEq] at hstep
    exact hstep ▸ hframe _ (frame_onActivated tabId windowId s)
  | windowRemoved windowId =>
    simp only [step, Option.some.injEq] at hstep
    exact hstep ▸ hframe _ (frame_onWindowRemoved windowId s)
  | navigationCommitted frameId tabId =>
    simp only [step, Option.some.injEq] at hstep
    exact hstep ▸ hframe _ (frame_onCommitted frameId tabId s)
  | activeTabsQueried tabs =>
    simp only [step, Option.some.injEq] at hstep
    exact hstep ▸ hframe _ (frame_onActiveTabsQueried tabs s)
  | prefSet value =>
    simp only [step, Option.some.injEq] at hstep
    exact hstep ▸ ⟨hnot, rfl⟩
  | prefTabsQueried tabs =>
    simp only [step, Option.some.injEq] at hstep
    exact hstep ▸ hframe _ (frame_onPrefTabsQueried tabs s)
  | timerFired =>
    simp only [step, fireTimer] at hstep
    split at hstep
    · cases hstep
    · simp only [Option.some.injEq] at hstep
      subst hstep
      rw [updateBadge_eq]
      exact ⟨hnot, rfl⟩
  | untilLoadedRun =>
    simp only [step, runUntilLoaded, hnot, Bool.false_and] at hstep
    cases hstep

theorem total_kept_run (es : List Event) (s s1 : State) (hnot : s.prefsLoaded = false)
    (hquiet : Event.prefsLoaded ∉ es) (hrun : run s es = some s1) :
    s1.blocked_total = s.blocked_total := by
  induction es generalizing s with
  | nil =>
    simp only [run, Option.some.injEq] at hrun
    exact hrun ▸ rfl
  | cons e es ih =>
    simp only [run] at hrun
    cases hstep : step s e with
    | none => simp [hstep] at hrun
    | some s2 =>
      rw [hstep] at hrun
      have hne : e ≠ .prefsLoaded := fun h => hquiet (h ▸ List.mem_cons_self _ _)
      obtain ⟨h1, h2⟩ := total_kept_step s s2 e hnot hne hstep
      exact (ih s2 h1 (fun h => hquiet (List.mem_cons_of_mem _ h)) hrun).trans h2

/-- C18: every call `recordBlockedRequest(filter, tabIds)` with a blocking
filter attaches exactly one continuation `Prefs.blocked_total++` to
`Prefs.untilLoaded`, whatever the length of `tabIds`, and does not touch
`blocked_total` itself. A continuation runs only when the preferences are
loaded, and then adds exactly 1; once they are loaded the one attached by
the call can run; and as long as the readiness signal has not resolved, no
sequence of events changes `blocked_total`. -/
theorem blocked_total_deferred (filter : Filter) (tabIds : List TabId) (s : State)
    (hblocking : filter.isBlocking = true) :
    (recordBlockedRequest filter tabIds s).untilLoadedPending = s.untilLoadedPending + 1 ∧
      (recordBlockedRequest filter tabIds s).blocked_total = s.blocked_total ∧
      (recordBlockedRequest filter tabIds s).prefsLoaded = s.prefsLoaded ∧
      (∀ st st1, runUntilLoaded st = some st1 →
        st.prefsLoaded = true ∧ st1.blocked_total = st.blocked_total + 1 ∧
          st1.untilLoadedPending + 1 = st.untilLoadedPending) ∧
      (s.prefsLoaded = true →
        ∃ s1, runUntilLoaded (recordBlockedRequest filter tabIds s) = some s1 ∧
          s1.blocked_total = s.blocked_total + 1) ∧
      (s.prefsLoaded = false →
        ∀ es s1, Event.prefsLoaded ∉ es → run (recordBlockedRequest filter tabIds s) es = some s1 →
          s1.blocked_total = s.blocked_total) := by
  have hframe := frame_recordBlockedRequest filter tabIds s
  have hpending :
      (recordBlockedRequest filter tabIds s).untilLoadedPending = s.untilLoadedPending + 1 := by
    simp only [recordBlockedRequest, hblocking, Bool.not_true, Bool.false_eq_true, if_false]
    rw [foldl_recordStep_untilLoadedPending]
  refine ⟨hpending, hframe.2.1, hframe.1, ?_, ?_, ?_⟩
  · intro st st1 hrun
    unfold runUntilLoaded at hrun
    split at hrun
    · rename_i hcond
      simp only [Bool.and_eq_true, decide_eq_true_eq] at hcond
      simp only [Option.some.injEq] at hrun
      subst hrun
      exact ⟨hcond.1, rfl, Nat.sub_add_cancel hcond.2⟩
    · cases hrun
  · intro hloaded
    have hcond : ((recordBlockedRequest filter tabIds s).prefsLoaded &&
        decide (0 < (recordBlockedRequest filter tabIds s).untilLoadedPending)) = true := by
      simp only [Bool.and_eq_true, decide_eq_true_eq]
      exact ⟨hframe.1.trans hloaded, by omega⟩
    refine ⟨{ recordBlockedRequest filter tabIds s with
        untilLoadedPending := (recordBlockedRequest filter tabIds s).untilLoadedPending - 1,
        blocked_total := (recordBlockedRequest filter tabIds s).blocked_total + 1 }, ?_, ?_⟩
    · unfold runUntilLoaded
      rw [if_pos hcond]
    · show (recordBlockedRequest filter tabIds s).blocked_total + 1 = s.blocked_total + 1
      rw [hframe.2.1]
  · intro hnot es s1 hquiet hrun
    exact (total_kept_run es _ s1 (hframe.1.trans hnot) hquiet hrun).trans hframe.2.1

/-- C18 at a concrete input: a blocking filter recorded for no tab at all,
right after start-up. -/
theorem blocked_total_deferred_witness :
    (recordBlockedRequest ⟨true, "ads"⟩ [] (State.init true)).untilLoadedPending = 0 + 1 ∧
      (recordBlockedRequest ⟨true, "ads"⟩ [1, 2, 3] (State.init true)).untilLoadedPending =
        0 + 1 :=
  ⟨(blocked_total_deferred ⟨true, "ads"⟩ [] (State.init true) rfl).1,
    (blocked_total_deferred ⟨true, "ads"⟩ [1, 2, 3] (State.init true) rfl).1⟩

/-! ## The counter store: stored counts only grow -/

theorem storeGrows_refl (s : State) : StoreGrows s s :=
  fun _ count h => ⟨count, h, le_refl _⟩

theorem storeGrows_trans {s s1 s2 : State} (h1 : StoreGrows s s1) (h2 : StoreGrows s1 s2) :
    StoreGrows s s2 := by
  intro page count h
  obtain ⟨c1, hc1, hle1⟩ := h1 page count h
  obtain ⟨c2, hc2, hle2⟩ := h2 page c1 hc1
  exact ⟨c2, hc2, hle1.trans hle2⟩

theorem storeGrows_of_eq {s s1 : State} (h : s1.blockedPerPage = s.blockedPerPage) :
    StoreGrows s s1 := by
  intro page count hc
  exact ⟨count, by rw [h]; exact hc, le_refl _⟩

theorem weight_pos (filter : Filter) :
    (0 : ℚ) < if isTrackerLike filter.pattern then 1 / 1000 else 1 := by
  split <;> norm_num

theorem storeGrows_recordStep (filter : Filter) (s : State) (tabId : TabId) :
    StoreGrows s (recordStep filter s tabId) := by
  intro page count hc
  rw [recordStep_blockedPerPage]
  by_cases h : page.id = tabId
  · obtain ⟨id⟩ := page
    simp only at h
    subst h
    refine ⟨_, JsMap.get_set_self _ _ _, ?_⟩
    rw [hc, orZero_some]
    linarith [weight_pos filter]
  · exact ⟨count, (JsMap.get_set_ne _ _ h).trans hc, le_refl _⟩

theorem storeGrows_recordBlockedRequest (filter : Filter) (tabIds : List TabId) (s : State) :
    StoreGrows s (recordBlockedRequest filter tabIds s) := by
  unfold recordBlockedRequest
  split
  · exact storeGrows_refl s
  · exact foldl_preserves (StoreGrows s) (recordStep filter)
      (fun st x hst => storeGrows_trans hst (storeGrows_recordStep filter st x)) tabIds s
      (storeGrows_refl s)

theorem positiveStore_recordStep (filter : Filter) (s : State) (tabId : TabId)
    (hpos : PositiveStore s) : PositiveStore (recordStep filter s tabId) := by
  intro page count hc
  rw [recordStep_blockedPerPage] at hc
  by_cases h : page.id = tabId
  · obtain ⟨id⟩ := page
    simp only at h
    subst h
    rw [show (s.blockedPerPage.set ⟨id⟩ _).get ⟨id⟩ = some _ from JsMap.get_set_self _ _ _] at hc
    rw [← Option.some.inj hc]
    have hnonneg : (0 : ℚ) ≤ orZero (s.blockedPerPage.get ⟨id⟩) := by
      cases hget : s.blockedPerPage.get ⟨id⟩ with
      | none => exact le_refl _
      | some v =>
        rw [orZero_some]
        exact le_of_lt (hpos ⟨id⟩ v hget)
    linarith [weight_pos filter]
  · rw [show (s.blockedPerPage.set ⟨tabId⟩ _).get page = s.blockedPerPage.get page from
      JsMap.get_set_ne _ _ h] at hc
    exact hpos page count hc

theorem positiveStore_recordBlockedRequest (filter : Filter) (tabIds : List TabId) (s : State)
    (hpos : PositiveStore s) : PositiveStore (recordBlockedRequest filter tabIds s) := by
  unfold recordBlockedRequest
  split
  · exact hpos
  · exact foldl_preserves PositiveStore (recordStep filter)
      (fun st x hst => positiveStore_recordStep filter st x hst) tabIds s hpos

theorem updateBadge_blockedPerPage (tabId : Option TabId) (s : State) :
    (updateBadge tabId s).blockedPerPage = s.blockedPerPage := by
  rw [updateBadge_eq]

theorem store_kept_step (s s1 : State) (e : Event)
    (hne : ∀ filter tabIds, e ≠ .blockedRequest filter tabIds) (hstep : step s e = some s1) :
    s1.blockedPerPage = s.blockedPerPage := by
  cases e with
  | blockedRequest filter tabIds => exact absurd rfl (hne filter tabIds)
  | repaintRequest tabId =>
    simp only [step, Option.some.injEq] at hstep
    exact hstep ▸ scheduleBadgeUpdate_blockedPerPage tabId s
  | tabActivated tabId windowId =>
    simp only [step, Option.some.injEq] at hstep
    subst hstep
    unfold onActivated
    rw [scheduleBadgeUpdate_blockedPerPage]
  | windowRemoved windowId =>
    simp only [step, Option.some.injEq] at hstep
    exact hstep ▸ rfl
  | navigationCommitted frameId tabId =>
    simp only [step, Option.some.injEq] at hstep
    subst hstep
    unfold onCommitted
    split
    · exact updateBadge_blockedPerPage _ _
    · rfl
  | timerFired =>
    simp only [step, fireTimer] at hstep
    split at hstep
    · cases hstep
    · simp only [Option.some.injEq] at hstep
      subst hstep
      rw [updateBadge_blockedPerPage]
  | activeTabsQueried tabs =>
    simp only [step, Option.some.injEq] at hstep
    subst hstep
    unfold onActiveTabsQueried
    rw [scheduleBadgeUpdate_blockedPerPage]
    refine foldl_preserves (fun st => st.blockedPerPage = s.blockedPerPage) _ ?_ tabs s rfl
    intro st x hst
    exact hst
  | prefSet value =>
    simp only [step, Option.some.injEq] at hstep
    exact hstep ▸ rfl
  | prefTabsQueried tabs =>
    simp only [step, Option.some.injEq] at hstep
    subst hstep
    unfold onPrefTabsQueried
    refine foldl_preserves (fun st => st.blockedPerPage = s.blockedPerPage) _ ?_ tabs s rfl
    intro st x hst
    dsimp only
    split
    · exact (updateBadge_blockedPerPage _ _).trans hst
    · exact hst
  | prefsLoaded =>
    simp only [step, Option.some.injEq] at hstep
    exact hstep ▸ rfl
  | untilLoadedRun =>
    simp only [step, runUntilLoaded] at hstep
    split at hstep
    · simp only [Option.some.injEq] at hstep
      exact hstep ▸ rfl
    · cases hstep

theorem storeGrows_step (s s1 : State) (e : Event) (hstep : step s e = some s1) :
    StoreGrows s s1 := by
  cases e with
  | blockedRequest filter tabIds =>
    simp only [step, Option.some.injEq] at hstep
    exact hstep ▸ storeGrows_recordBlockedRequest filter tabIds s
  | _ => exact storeGrows_of_eq (store_kept_step s s1 _ (fun _ _ h => by cases h) hstep)

theorem positiveStore_step (s s1 : State) (e : Event) (hpos : PositiveStore s)
    (hstep : step s e = some s1) : PositiveStore s1 := by
  cases e with
  | blockedRequest filter tabIds =>
    simp only [step, Option.some.injEq] at hstep
    exact hstep ▸ positiveStore_recordBlockedRequest filter tabIds s hpos
  | _ =>
    intro page count hc
    rw [store_kept_step s s1 _ (fun _ _ h => by cases h) hstep] at hc
    exact hpos page count hc

theorem positiveStore_run (es : List Event) (s s1 : State) (hpos : PositiveStore s)
    (hrun : run s es = some s1) : PositiveStore s1 := by
  induction es generalizing s with
  | nil =>
    simp only [run, Option.some.injEq] at hrun
    exact hrun ▸ hpos
  | cons e es ih =>
    simp only [run] at hrun
    cases hstep : step s e with
    | none => simp [hstep] at hrun
    | some s2 =>
      rw [hstep] at hrun
      exact ih s2 (positiveStore_step s s2 e hpos hstep) hrun

theorem onPrefTabsQueried_disabled (tabs : List TabId) (s : State)
    (hoff : s.show_statsinicon = false) :
    (onPrefTabsQueried tabs s).badgeCalls =
      s.badgeCalls ++ tabs.map fun id => (id, BadgeArg.null) := by
  induction tabs generalizing s with
  | nil => simp [onPrefTabsQueried]
  | cons t ts ih =>
    have hstep : onPrefTabsQueried (t :: ts) s = onPrefTabsQueried ts (setBadge t .null s) := by
      unfold onPrefTabsQueried
      rw [List.foldl_cons, if_neg (by simp [hoff])]
    rw [hstep, ih (setBadge t .null s) hoff]
    simp [setBadge]

theorem updateBadge_new_calls (tabId : Option TabId) (s : State) :
    (updateBadge tabId s).badgeCalls.drop s.badgeCalls.length =
      if s.show_statsinicon then
        (badgeTargets tabId s).map fun id => (id, badgeOf (s.blockedPerPage.get ⟨id⟩))
      else [] := by
  rw [updateBadge_eq]
  exact List.drop_left _ _

/-- C19, as stated, fails in its last part: after one block recorded for tab
7 and badge display switched off, tab 7 has a stored entry, and the
preference listener issues the instruction `null` for it, which clears its
badge. -/
theorem stored_entry_cleared_counterexample :
    ∃ s s1,
      run (State.init true) [.blockedRequest ⟨true, "ads"⟩ [7], .prefSet false] = some s ∧
      (s.blockedPerPage.get ⟨7⟩).isSome = true ∧
      step s (.prefTabsQueried [7]) = some s1 ∧
      s1.badgeCalls = s.badgeCalls ++ [(7, BadgeArg.null)] :=
  ⟨_, _, rfl, by decide, rfl, by decide⟩

/-- C19, amended: in every state reached from an empty counter store by any
sequence of the module's events, every stored per-page count is strictly
positive, and no event decreases or removes a stored count: after any event
each stored entry is still there, with a count at least as large. Hence every
instruction that `updateBadge` issues for a page with a stored entry is a
badge with that count, never no badge, and with badge display enabled it
issues one; with badge display off the preference listener issues `null`
for every tab, stored entry or not. -/
theorem stored_counts_positive (s0 : State) (es : List Event) (s : State)
    (hempty : s0.blockedPerPage = ⟨JsMap.empty⟩) (hrun : run s0 es = some s) :
    (∀ page count, s.blockedPerPage.get page = some count →
        0 < count ∧
          (s.show_statsinicon = true →
            (updateBadge (some page.id) s).badgeCalls =
              s.badgeCalls ++ [(page.id, .badge "#646464" count)])) ∧
      (∀ tabId id value,
        (id, value) ∈ (updateBadge tabId s).badgeCalls.drop s.badgeCalls.length →
          ∀ count, s.blockedPerPage.get ⟨id⟩ = some count → value = .badge "#646464" count) ∧
      (∀ tabs, s.show_statsinicon = false →
        (onPrefTabsQueried tabs s).badgeCalls =
          s.badgeCalls ++ tabs.map fun id => (id, BadgeArg.null)) ∧
      ∀ e s1, step s e = some s1 →
        ∀ page count, s.blockedPerPage.get page = some count →
          ∃ count1, s1.blockedPerPage.get page = some count1 ∧ count ≤ count1 := by
  have hinit : PositiveStore s0 := by
    intro page count hc
    rw [hempty] at hc
    cases hc
  have hpos := positiveStore_run es s0 s hinit hrun
  have hbadge : ∀ page count, s.blockedPerPage.get page = some count →
      badgeOf (s.blockedPerPage.get page) = .badge "#646464" count := by
    intro page count hc
    have hne : count ≠ 0 := ne_of_gt (hpos page count hc)
    rw [hc]
    simp [badgeOf, hne, badgeColor]
  refine ⟨fun page count hc => ⟨hpos page count hc, fun hpref => ?_⟩, ?_,
    fun tabs hoff => onPrefTabsQueried_disabled tabs s hoff,
    fun e s1 hstep => storeGrows_step s s1 e hstep⟩
  · rw [updateBadge_eq, if_pos hpref]
    show s.badgeCalls ++ [(page.id, badgeOf (s.blockedPerPage.get page))] = _
    rw [hbadge page count hc]
  · intro tabId id value hmem count hc
    rw [updateBadge_new_calls] at hmem
    split at hmem
    · rw [List.mem_map] at hmem
      obtain ⟨id1, _, heq⟩ := hmem
      have h1 : id1 = id := congrArg Prod.fst heq
      have h2 : badgeOf (s.blockedPerPage.get ⟨id1⟩) = value := congrArg Prod.snd heq
      rw [← h2, h1]
      exact hbadge ⟨id⟩ count hc
    · cases hmem

/-- C19, amended, at a concrete input: a tracker-like block for tab 7, an
activation, a timer firing. -/
theorem stored_counts_positive_witness :
    ∃ s, run (State.init true)
        [.blockedRequest ⟨true, "googletagmanager"⟩ [7], .tabActivated 7 1, .timerFired] =
          some s ∧
      ∀ page count, s.blockedPerPage.get page = some count →
        0 < count ∧
          (s.show_statsinicon = true →
            (updateBadge (some page.id) s).badgeCalls =
              s.badgeCalls ++ [(page.id, .badge "#646464" count)]) :=
  ⟨_, rfl, (stored_counts_positive (State.init true)
    [.blockedRequest ⟨true, "googletagmanager"⟩ [7], .tabActivated 7 1, .timerFired] _
    rfl rfl).1⟩

/-! ## The classification rule set: longer texts -/

theorem matchHere_append (r : Regex) (xs ys : List Nat) (h : matchHere r xs = true) :
    matchHere r (xs ++ ys) = true := by
  induction r generalizing xs with
  | nil => simp [matchHere]
  | cons it rest ih =>
    cases xs with
    | nil =>
      simp only [matchHere, Bool.and_eq_true] at h
      cases ys with
      | nil => simp [matchHere, h.1, h.2]
      | cons c cs =>
        have hrest := ih [] h.2
        simp only [List.nil_append] at hrest ⊢
        simp [matchHere, h.1, hrest]
    | cons c cs =>
      simp only [matchHere, Bool.or_eq_true, Bool.and_eq_true] at h
      rcases h with ⟨hacc, hrest⟩ | ⟨hopt, hrest⟩
      · have h1 := ih cs hrest
        simp [matchHere, hacc, h1]
      · have h1 := ih (c :: cs) hrest
        simp only [List.cons_append] at h1 ⊢
        simp [matchHere, hopt, h1]

theorem searchRx_append_right (r : Regex) (xs ys : List Nat) (h : searchRx r xs = true) :
    searchRx r (xs ++ ys) = true := by
  induction xs with
  | nil =>
    simp only [searchRx] at h
    have h1 := matchHere_append r [] ys h
    simp only [List.nil_append] at h1 ⊢
    cases ys with
    | nil => simpa [searchRx] using h1
    | cons c cs => simp [searchRx, h1]
  | cons c cs ih =>
    simp only [searchRx, Bool.or_eq_true] at h
    rcases h with h | h
    · have h1 := matchHere_append r (c :: cs) ys h
      simp only [List.cons_append] at h1 ⊢
      simp [searchRx, h1]
    · simp [searchRx, ih h]

theorem searchRx_append_left (r : Regex) (pre xs : List Nat) (h : searchRx r xs = true) :
    searchRx r (pre ++ xs) = true := by
  induction pre with
  | nil => exact h
  | cons p ps ih => simp [searchRx, ih]

theorem utf16_append (a b : String) : utf16 (a ++ b) = utf16 a ++ utf16 b := by
  simp [utf16, String.toList]

theorem test_append (r : Regex) (s u v : String) (h : r.test s = true) :
    r.test (u ++ s ++ v) = true := by
  unfold Regex.test at h ⊢
  rw [utf16_append, utf16_append]
  exact searchRx_append_right r _ _ (searchRx_append_left r _ _ h)

theorem isTrackerLike_append (s u v : String) (h : isTrackerLike s = true) :
    isTrackerLike (u ++ s ++ v) = true := by
  unfold isTrackerLike at h ⊢
  rw [List.any_eq_true] at h ⊢
  obtain ⟨r, hr, hs⟩ := h
  exact ⟨r, hr, test_append r s u v hs⟩

/-- C20: tracker classification is monotone under substring extension: for
all strings `s`, `u`, `v`, if some pattern of `arrayPrivacy` matches `s` then
some pattern matches `u ++ s ++ v`. So every pattern text that contains
`"ga"`, `"stat"`, `"data"` or `"count"` anywhere is tracker-like, and a
blocking filter with such a text adds 0.001, not 1, to the count of a tab. -/
theorem isTrackerLike_substring_extension :
    (∀ s u v : String, isTrackerLike s = true → isTrackerLike (u ++ s ++ v) = true) ∧
      ∀ w ∈ ["ga", "stat", "data", "count"], ∀ (u v : String) (tabId : TabId) (st : State),
        isTrackerLike (u ++ w ++ v) = true ∧
          getBlockedPerPage (recordBlockedRequest ⟨true, u ++ w ++ v⟩ [tabId] st) ⟨tabId⟩ =
            getBlockedPerPage st ⟨tabId⟩ + 1 / 1000 := by
  refine ⟨isTrackerLike_append, fun w hw u v tabId st => ?_⟩
  have hbase : isTrackerLike w = true := by
    simp only [List.mem_cons, List.mem_singleton, List.not_mem_nil, or_false] at hw
    rcases hw with rfl | rfl | rfl | rfl <;> decide
  have htracker := isTrackerLike_append w u v hbase
  refine ⟨htracker, ?_⟩
  unfold getBlockedPerPage
  rw [recordBlockedRequest_blockedPerPage _ _ _ rfl]
  have h := foldl_recordStep_getBlockedPerPage ⟨true, u ++ w ++ v⟩ [tabId] ⟨tabId⟩ st
  unfold getBlockedPerPage at h
  rw [h, htracker]
  norm_num

/-- C20 at a concrete input: `"stat"` inside a longer pattern text. -/
theorem isTrackerLike_substring_extension_witness :
    isTrackerLike ("||example.com/" ++ "stat" ++ "ic/banner.png") = true :=
  isTrackerLike_substring_extension.1 "stat" "||example.com/" "ic/banner.png" (by decide)

/-! ## Facts about the counter store over doubles -/

theorem log2Fuel_eq_log2 (fuel n : Nat) (hle : n ≤ fuel) : log2Fuel fuel n = Nat.log2 n := by
  induction fuel generalizing n with
  | zero =>
    have hn : n = 0 := by omega
    subst hn
    rw [Nat.log2]
    simp [log2Fuel]
  | succ f ih =>
    rw [log2Fuel, Nat.log2]
    by_cases h2 : n < 2
    · rw [if_pos h2, if_neg (by omega)]
    · rw [if_neg h2, if_pos (by omega), ih (n / 2) (by omega)]

theorem bitLog_eq_log2 (n : Nat) : bitLog n = Nat.log2 n :=
  log2Fuel_eq_log2 n n (le_refl n)

theorem F64.norm_mant_zero (q : Nat) (e : Int) (h : (F64.norm q e).mant = 0) :
    F64.norm q e = F64.zero := by
  unfold F64.norm at h ⊢
  split
  · rfl
  · rename_i hq
    rw [if_neg hq] at h
    exact absurd h hq

theorem F64.pack_mant_zero (q : Nat) (e : Int) (h : (F64.pack q e).mant = 0) :
    F64.pack q e = F64.zero := by
  unfold F64.pack at h ⊢
  split
  · rename_i hq
    rw [if_pos hq] at h
    have hpow : (2 : Nat) ^ 52 ≠ 0 := by decide
    exact absurd h hpow
  · rename_i hq
    rw [if_neg hq] at h
    exact F64.norm_mant_zero _ _ h

theorem F64.round_mant_zero (n d : Nat) (h : (F64.round n d).mant = 0) :
    F64.round n d = F64.zero := by
  unfold F64.round at h ⊢
  by_cases hn : n = 0
  · rw [if_pos hn]
  · rw [if_neg hn] at h ⊢
    exact F64.pack_mant_zero _ _ h

theorem F64.add_mant_zero (x y : F64) (h : (F64.add x y).mant = 0) :
    F64.add x y = F64.zero := by
  unfold F64.add at h ⊢
  dsimp only at h ⊢
  split
  · rename_i he
    rw [if_pos he] at h
    exact F64.round_mant_zero _ _ h
  · rename_i he
    rw [if_neg he] at h
    exact F64.round_mant_zero _ _ h

theorem orZeroF64_add (x y : F64) : orZeroF64 (some (F64.add x y)) = F64.add x y := by
  show (if (F64.add x y).mant = 0 then F64.zero else F64.add x y) = F64.add x y
  split
  · rename_i h
    exact (F64.add_mant_zero x y h).symm
  · rfl

theorem recordStepF64_eq (filter : Filter) (store : JsMap TabId F64) (tabId : TabId) :
    recordStepF64 filter store tabId =
      store.set tabId (F64.add (orZeroF64 (store.get tabId)) (incrementF64 filter)) := by
  unfold recordStepF64 incrementF64
  split <;> rfl

theorem recordStepF64_get_ne (filter : Filter) (store : JsMap TabId F64) (tabId : TabId)
    (page : Page) (hne : page.id ≠ tabId) :
    (recordStepF64 filter store tabId).get page.id = store.get page.id := by
  rw [recordStepF64_eq]
  exact JsMap.get_set_ne _ _ hne

theorem recordStepF64_getBlocked (filter : Filter) (store : JsMap TabId F64) (tabId : TabId)
    (page : Page) :
    getBlockedF64 (recordStepF64 filter store tabId) page =
      if tabId = page.id then F64.add (getBlockedF64 store page) (incrementF64 filter)
      else getBlockedF64 store page := by
  by_cases h : tabId = page.id
  · subst h
    rw [if_pos rfl]
    unfold getBlockedF64
    rw [recordStepF64_eq, JsMap.get_set_self, orZeroF64_add]
  · rw [if_neg h]
    unfold getBlockedF64
    rw [recordStepF64_get_ne filter store tabId page (fun h1 => h h1.symm)]

theorem foldl_recordStepF64_getBlocked (filter : Filter) (tabIds : List TabId) (page : Page)
    (store : JsMap TabId F64) :
    getBlockedF64 (tabIds.foldl (recordStepF64 filter) store) page =
      addTimes (incrementF64 filter) (tabIds.count page.id) (getBlockedF64 store page) := by
  induction tabIds generalizing store with
  | nil => rfl
  | cons t ts ih =>
    rw [List.foldl_cons, ih, recordStepF64_getBlocked, List.count_cons]
    by_cases h : t = page.id
    · have h1 : (t == page.id) = true := by simpa using h
      rw [if_pos h, h1, if_pos rfl]
      rfl
    · have h1 : (t == page.id) = false := by simpa using h
      rw [if_neg h, h1]
      rfl

theorem foldl_recordStepF64_get_of_not_mem (filter : Filter) (tabIds : List TabId)
    (page : Page) (hnot : page.id ∉ tabIds) (store : JsMap TabId F64) :
    (tabIds.foldl (recordStepF64 filter) store).get page.id = store.get page.id := by
  induction tabIds generalizing store with
  | nil => rfl
  | cons t ts ih =>
    rw [List.foldl_cons, ih (fun h => hnot (List.mem_cons_of_mem _ h)),
      recordStepF64_get_ne filter store t page (fun h => hnot (h ▸ List.mem_cons_self _ _))]

/-! ## The counter store: one call, in doubles and in exact arithmetic -/

set_option maxRecDepth 100000 in
/-- C2, as stated, fails on the code's doubles: with 3 stored for tab 7 (three
blocks that are not tracker-like), recording a tracker-like filter for the
tabs 7, 7, 7 stores `6762154840496799 * 2 ^ (-51)`, printed
3.0029999999999997, while the previous count plus `k * d` is 3.003, that is
`6762154840496800 * 2 ^ (-51)`, both as the JavaScript expression
`3 + 3 * 0.001` and as the double nearest to 3003/1000. -/
theorem recordBlockedRequest_count_counterexample :
    (recordBlockedRequestF64 ⟨true, "ads"⟩ [7, 7, 7] JsMap.empty).get 7 = some (F64.ofNat 3) ∧
      (recordBlockedRequestF64 ⟨true, "track"⟩ [7, 7, 7]
          (recordBlockedRequestF64 ⟨true, "ads"⟩ [7, 7, 7] JsMap.empty)).get 7 =
        some ⟨6762154840496799, -51⟩ ∧
      F64.add (F64.ofNat 3) (F64.mul (F64.ofNat 3) F64.milli) = ⟨6762154840496800, -51⟩ ∧
      F64.round 3003 1000 = ⟨6762154840496800, -51⟩ := by
  decide

/-- C2, amended: for every blocking filter and every list `tabIds`, after
`recordBlockedRequest(filter, tabIds)` the count of each page is its previous
count (0 if absent) with `d` added `k` times, one rounded double addition
after the other, where `k` is the number of occurrences of the page's tab id
in `tabIds` and `d` is 0.001 if some pattern of `arrayPrivacy` matches
`filter.pattern` and 1 otherwise; with counts taken as exact reals this is
the previous count plus `k * d`. The entry of a page whose tab id is not in
`tabIds` is unchanged. -/
theorem recordBlockedRequest_count (filter : Filter) (tabIds : List TabId) (s : State)
    (store : JsMap TabId F64) (page : Page) (hblocking : filter.isBlocking = true) :
    (getBlockedF64 (recordBlockedRequestF64 filter tabIds store) page =
        addTimes (if arrayPrivacy.any (fun r => r.test filter.pattern) then F64.milli
          else F64.ofNat 1) (tabIds.count page.id) (getBlockedF64 store page) ∧
      (page.id ∉ tabIds →
        (recordBlockedRequestF64 filter tabIds store).get page.id = store.get page.id)) ∧
    (getBlockedPerPage (recordBlockedRequest filter tabIds s) page =
        getBlockedPerPage s page +
          (tabIds.count page.id : ℚ) *
            (if arrayPrivacy.any (fun r => r.test filter.pattern) then 1 / 1000 else 1) ∧
      (page.id ∉ tabIds →
        (recordBlockedRequest filter tabIds s).blockedPerPage.get page =
            s.blockedPerPage.get page ∧
          getBlockedPerPage (recordBlockedRequest filter tabIds s) page =
            getBlockedPerPage s page)) := by
  have hpp := recordBlockedRequest_blockedPerPage filter tabIds s hblocking
  have hf64 : recordBlockedRequestF64 filter tabIds store =
      tabIds.foldl (recordStepF64 filter) store := by
    simp [recordBlockedRequestF64, hblocking]
  refine ⟨⟨?_, fun hnot => ?_⟩, ?_, fun hnot => ?_⟩
  · rw [hf64]
    exact foldl_recordStepF64_getBlocked filter tabIds page store
  · rw [hf64]
    exact foldl_recordStepF64_get_of_not_mem filter tabIds page hnot store
  · unfold getBlockedPerPage
    rw [hpp]
    exact foldl_recordStep_getBlockedPerPage filter tabIds page s
  · have hget : (recordBlockedRequest filter tabIds s).blockedPerPage.get page =
        s.blockedPerPage.get page := by
      rw [hpp]
      exact foldl_recordStep_get_of_not_mem filter tabIds page hnot s
    refine ⟨hget, ?_⟩
    unfold getBlockedPerPage
    rw [hget]

/-- C2, amended, at a concrete input: a tracker-like filter recorded for the
tabs 7, 7, 8, in doubles after three other blocks for tab 7, and in exact
arithmetic right after start-up. -/
theorem recordBlockedRequest_count_witness :
    getBlockedF64
        (recordBlockedRequestF64 ⟨true, "googletagmanager"⟩ [7, 7, 8]
          (recordBlockedRequestF64 ⟨true, "ads"⟩ [7, 7, 7] JsMap.empty)) ⟨7⟩ =
      addTimes (if arrayPrivacy.any (fun r => r.test "googletagmanager") then F64.milli
          else F64.ofNat 1) (([7, 7, 8] : List TabId).count 7)
        (getBlockedF64 (recordBlockedRequestF64 ⟨true, "ads"⟩ [7, 7, 7] JsMap.empty) ⟨7⟩) ∧
    getBlockedPerPage (recordBlockedRequest ⟨true, "googletagmanager"⟩ [7, 7, 8] (State.init true))
        ⟨7⟩ =
      getBlockedPerPage (State.init true) ⟨7⟩ +
        (([7, 7, 8] : List TabId).count 7 : ℚ) *
          (if arrayPrivacy.any (fun r => r.test "googletagmanager") then 1 / 1000 else 1) :=
  ⟨(recordBlockedRequest_count ⟨true, "googletagmanager"⟩ [7, 7, 8] (State.init true)
      (recordBlockedRequestF64 ⟨true, "ads"⟩ [7, 7, 7] JsMap.empty) ⟨7⟩ rfl).1.1,
    (recordBlockedRequest_count ⟨true, "googletagmanager"⟩ [7, 7, 8] (State.init true)
      (recordBlockedRequestF64 ⟨true, "ads"⟩ [7, 7, 7] JsMap.empty) ⟨7⟩ rfl).2.1⟩

end Stats
